import Mathlib

/-!
# block_grasp_generator

A shallow embedding of `src/block_grasp_generator.cpp` (the grasp generator for a block)
and theorems about the candidates it produces.

Conventions of the embedding.

* C++ `double` is an arbitrary linearly ordered field `α`, and the functions of the C math
  library that the code calls (`sin`, `cos`, `sqrt`, the constant `M_PI`) are the fields of a
  record `Libm α`, together with the conversion of a `double` to `float` that happens when
  a `double` is stored in a `float32` field of a message.  The theorems about angles,
  qualities and poses are stated over `ℝ` (exact real arithmetic) with `Real.sin`,
  `Real.cos`, `Real.sqrt`, `Real.pi` and the IEEE 754 conversion `toFloat32`; the theorems
  about counts, ids and descriptors do not depend on the arithmetic and are stated for
  every `α` and every `Libm α`.
* Where a claim is decided by the rounding of `double` operations, the rounded operation is
  written with `toDouble` (IEEE 754 binary64, round to nearest, ties to even).
* C++ `int` is `Int`.  The loop counter `i`, `angle_resolution_` and the static `grasp_id`
  are mathematical integers: the code never wraps them, and a signed overflow (more than
  `2^31 - 1` grasps in one process) is undefined behaviour in C++.
* `std::vector<Grasp>` is `List`, `push_back` appends at the end.
* Eigen (`Quaterniond`, `AngleAxisd`, `Affine3d`), tf (`poseMsgToEigen`, `poseEigenToMsg`),
  boost (`lexical_cast`) and the ROS messages are external libraries; the parts the
  generator uses are written out after the library sources.
* `ros::Time::now()` stamps, the calls to `rviz_tools_` and the ROS log lines do not touch
  the grasps and are left out; `visualizeGrasps` takes the vector by `const` reference.
-/

namespace block_grasp_generator

/-! ## The C math library and the floating-point conversions -/

/-- The functions of `<cmath>` used by the generator, over the scalar type `α`, and the
conversion from `double` to `float`. -/
structure Libm (α : Type) where
  /-- The function `sin`. -/
  sin : α → α
  /-- The function `cos`. -/
  cos : α → α
  /-- The function `sqrt`. -/
  sqrt : α → α
  /-- The constant `M_PI`. -/
  M_PI : α
  /-- The implicit conversion of a `double` to `float`, made when a `double` is assigned to
  a `float32` field of a message; the resulting `float` is read as a number. -/
  toFloat : α → α

/-- The function `std::max(a, b)`: `(a < b) ? b : a`. -/
def std_max {α : Type} [LinearOrderedField α] (a b : α) : α :=
  if a < b then b else a

/-- Rounding to the nearest integer, a tie going to the even one. -/
def roundNearestEven {α : Type} [LinearOrderedField α] [FloorRing α] (y : α) : Int :=
  let n := ⌊y⌋
  let f := y - (n : α)
  if f < 1 / 2 then n
  else if 1 / 2 < f then n + 1
  else if n % 2 = 0 then n
  else n + 1

/-- IEEE 754 rounding to nearest, ties to even, into the binary format with `p` bits of
significand and the least normal exponent `emin` (subnormal numbers included; the
overflow to infinity is outside the model). -/
def ieeeRound {α : Type} [LinearOrderedField α] [FloorRing α] (p : Nat) (emin : Int)
    (x : α) : α :=
  if x = 0 then 0
  else
    let e := max (Int.log 2 |x|) emin
    let ulp : α := (2 : α) ^ (e - ((p : Int) - 1))
    (roundNearestEven (x / ulp) : α) * ulp

/-- The conversion of a `double` to `float` (IEEE 754 binary32), the result read as a
number. -/
def toFloat32 {α : Type} [LinearOrderedField α] [FloorRing α] (x : α) : α :=
  ieeeRound 24 (-126) x

/-- The rounding of the exact result of an operation to `double` (IEEE 754 binary64). -/
def toDouble {α : Type} [LinearOrderedField α] [FloorRing α] (x : α) : α :=
  ieeeRound 53 (-1022) x

/-- The value of the macro `M_PI` as a `double`: `0x400921FB54442D18`. -/
def M_PI_double {α : Type} [LinearOrderedField α] : α :=
  884279719003555 / 281474976710656

/-! ## Eigen: quaternions, angle-axis rotations, affine transforms -/

/-- The class `Eigen::Quaterniond`, constructor order `(w, x, y, z)`. -/
structure Quaterniond (α : Type) where
  w : α
  x : α
  y : α
  z : α

/-- The class `Eigen::AngleAxisd(angle, axis)`. -/
structure AngleAxisd (α : Type) where
  angle : α
  axis : Fin 3 → α

/-- The vector `Eigen::Vector3d::UnitX()`. -/
def UnitX {α : Type} [LinearOrderedField α] : Fin 3 → α := ![1, 0, 0]

/-- The vector `Eigen::Vector3d::UnitY()`. -/
def UnitY {α : Type} [LinearOrderedField α] : Fin 3 → α := ![0, 1, 0]

/-- The vector `Eigen::Vector3d::UnitZ()`. -/
def UnitZ {α : Type} [LinearOrderedField α] : Fin 3 → α := ![0, 0, 1]

/-- The conversion `Eigen::Quaterniond::operator=(const AngleAxisd&)`:
`ha = 0.5 * angle; w = cos(ha); vec = sin(ha) * axis`. -/
def AngleAxisd.toQuaternion {α : Type} [LinearOrderedField α] (m : Libm α)
    (aa : AngleAxisd α) : Quaterniond α :=
  let ha := 0.5 * aa.angle
  { w := m.cos ha
    x := m.sin ha * aa.axis 0
    y := m.sin ha * aa.axis 1
    z := m.sin ha * aa.axis 2 }

/-- The product `Eigen::internal::quat_product`: the Hamilton product `a * b`. -/
def Quaterniond.mul {α : Type} [LinearOrderedField α] (a b : Quaterniond α) : Quaterniond α :=
  { w := a.w * b.w - a.x * b.x - a.y * b.y - a.z * b.z
    x := a.w * b.x + a.x * b.w + a.y * b.z - a.z * b.y
    y := a.w * b.y + a.y * b.w + a.z * b.x - a.x * b.z
    z := a.w * b.z + a.z * b.w + a.x * b.y - a.y * b.x }

instance {α : Type} [LinearOrderedField α] : Mul (Quaterniond α) := ⟨Quaterniond.mul⟩

/-- The method `Eigen::QuaternionBase::toRotationMatrix()` (it does not normalise the quaternion). -/
def Quaterniond.toRotationMatrix {α : Type} [LinearOrderedField α] (q : Quaterniond α) :
    Matrix (Fin 3) (Fin 3) α :=
  let tx := 2 * q.x
  let ty := 2 * q.y
  let tz := 2 * q.z
  let twx := tx * q.w
  let twy := ty * q.w
  let twz := tz * q.w
  let txx := tx * q.x
  let txy := ty * q.x
  let txz := tz * q.x
  let tyy := ty * q.y
  let tyz := tz * q.y
  let tzz := tz * q.z
  !![1 - (tyy + tzz), txy - twz, txz + twy;
     txy + twz, 1 - (txx + tzz), tyz - twx;
     txz - twy, tyz + twx, 1 - (txx + tyy)]

/-- The conversion `Eigen::Quaterniond::operator=(const Matrix3d&)`
(`quaternionbase_assign_impl<Other,3,3>::run`, Shoemake 1987): the quaternion of a rotation
matrix.  `coeffs()` is indexed `x, y, z` at `0, 1, 2`. -/
def Quaterniond.ofRotationMatrix {α : Type} [LinearOrderedField α] (m : Libm α)
    (mat : Matrix (Fin 3) (Fin 3) α) : Quaterniond α :=
  let t := mat 0 0 + mat 1 1 + mat 2 2
  if t > 0 then
    let t := m.sqrt (t + 1.0)
    let w := 0.5 * t
    let t := 0.5 / t
    { w := w
      x := (mat 2 1 - mat 1 2) * t
      y := (mat 0 2 - mat 2 0) * t
      z := (mat 1 0 - mat 0 1) * t }
  else
    let i : Fin 3 := if mat 1 1 > mat 0 0 then 1 else 0
    let i : Fin 3 := if mat 2 2 > mat i i then 2 else i
    let j : Fin 3 := i + 1
    let k : Fin 3 := j + 1
    let t := m.sqrt (mat i i - mat j j - mat k k + 1.0)
    let qi := 0.5 * t
    let t := 0.5 / t
    let w := (mat k j - mat j k) * t
    let qj := (mat j i + mat i j) * t
    let qk := (mat k i + mat i k) * t
    let coeffs : Fin 3 → α := fun n => if n = i then qi else if n = j then qj else qk
    { w := w, x := coeffs 0, y := coeffs 1, z := coeffs 2 }

/-- The class `Eigen::Affine3d`: the affine map `v ↦ linear * v + translation`
(the 4×4 matrix with last row `0 0 0 1`). -/
structure Affine3d (α : Type) where
  linear : Matrix (Fin 3) (Fin 3) α
  translation : Fin 3 → α

/-- The product `Eigen::Affine3d::operator*(const Affine3d&)`: composition of affine maps. -/
def Affine3d.mul {α : Type} [LinearOrderedField α] (a b : Affine3d α) : Affine3d α :=
  { linear := a.linear * b.linear
    translation := a.linear.mulVec b.translation + a.translation }

instance {α : Type} [LinearOrderedField α] : Mul (Affine3d α) := ⟨Affine3d.mul⟩

/-- The assignment `Eigen::Affine3d::operator=(const Quaterniond&)`: the rotation, with zero translation. -/
def Affine3d.ofQuaternion {α : Type} [LinearOrderedField α] (q : Quaterniond α) : Affine3d α :=
  { linear := q.toRotationMatrix
    translation := ![0, 0, 0] }

/-- The homogeneous 4×4 matrix stored by an `Eigen::Affine3d`. -/
def Affine3d.matrix {α : Type} [LinearOrderedField α] (a : Affine3d α) :
    Matrix (Fin 4) (Fin 4) α :=
  !![a.linear 0 0, a.linear 0 1, a.linear 0 2, a.translation 0;
     a.linear 1 0, a.linear 1 1, a.linear 1 2, a.translation 1;
     a.linear 2 0, a.linear 2 1, a.linear 2 2, a.translation 2;
     0, 0, 0, 1]

/-! ## ROS messages -/

/-- The message `std_msgs::Header` (only `frame_id`; `seq` and `stamp` are left out). -/
structure Header where
  frame_id : String
deriving DecidableEq, Repr

/-- The message `geometry_msgs::Point`. -/
structure Point (α : Type) where
  x : α
  y : α
  z : α

/-- The message `geometry_msgs::Quaternion`. -/
structure Quaternion (α : Type) where
  x : α
  y : α
  z : α
  w : α

/-- The message `geometry_msgs::Pose`. -/
structure Pose (α : Type) where
  position : Point α
  orientation : Quaternion α

/-- The message `geometry_msgs::PoseStamped`. -/
structure PoseStamped (α : Type) where
  header : Header
  pose : Pose α

/-- The message `geometry_msgs::Vector3`. -/
structure Vector3 (α : Type) where
  x : α
  y : α
  z : α

/-- The message `geometry_msgs::Vector3Stamped`. -/
structure Vector3Stamped (α : Type) where
  header : Header
  vector : Vector3 α

/-- The message `manipulation_msgs::GripperTranslation`.  Its fields `desired_distance` and
`min_distance` are `float32`: they hold the numbers that the conversion `Libm.toFloat`
gives. -/
structure GripperTranslation (α : Type) where
  direction : Vector3Stamped α
  desired_distance : α
  min_distance : α

/-- The message `sensor_msgs::JointState` (without its header). -/
structure JointState (α : Type) where
  name : List String
  position : List α
  velocity : List α
  effort : List α

/-- The message `manipulation_msgs::Grasp`. -/
structure Grasp (α : Type) where
  id : String
  pre_grasp_posture : JointState α
  grasp_posture : JointState α
  grasp_pose : PoseStamped α
  grasp_quality : α
  approach : GripperTranslation α
  retreat : GripperTranslation α
  max_contact_force : α
  allowed_touch_objects : List String

/-! ## tf / eigen_conversions -/

/-- The conversion `tf::poseMsgToEigen`:
`e = Translation3d(position) * Quaterniond(orientation.w, .x, .y, .z)`. -/
def poseMsgToEigen {α : Type} [LinearOrderedField α] (msg : Pose α) : Affine3d α :=
  { linear := (Quaterniond.mk msg.orientation.w msg.orientation.x msg.orientation.y
      msg.orientation.z).toRotationMatrix
    translation := ![msg.position.x, msg.position.y, msg.position.z] }

/-- The conversion `tf::poseEigenToMsg`: the position is the translation, the orientation is
`Quaterniond(e.linear())`, negated when its `w` is negative. -/
def poseEigenToMsg {α : Type} [LinearOrderedField α] (m : Libm α) (e : Affine3d α) : Pose α :=
  let q := Quaterniond.ofRotationMatrix m e.linear
  let o : Quaternion α := { x := q.x, y := q.y, z := q.z, w := q.w }
  let o : Quaternion α :=
    if o.w < 0 then { x := o.x * (-1), y := o.y * (-1), z := o.z * (-1), w := o.w * (-1) }
    else o
  { position := { x := e.translation 0, y := e.translation 1, z := e.translation 2 }
    orientation := o }

/-! ## The generator -/

/-- Modelled from the spec: the enumeration `grasp_axis_t` of the header
`block_grasp_generator.h`, which is not part of the sources; the three principal axes. -/
inductive grasp_axis_t where
  | X_AXIS
  | Y_AXIS
  | Z_AXIS
deriving DecidableEq, Repr

/-- Modelled from the spec: the enumeration `grasp_direction_t` of the header
`block_grasp_generator.h`, which is not part of the sources; the gripper comes from the
up side or the down side. -/
inductive grasp_direction_t where
  | UP
  | DOWN
deriving DecidableEq, Repr

open grasp_axis_t grasp_direction_t

/-- Modelled from the spec: the configuration class `RobotGraspData` of the header
`robot_grasp_data.h`, which is not part of the sources; the fields are the ones the
generator reads (`block_size_` is read by the visualisation only). -/
structure RobotGraspData (α : Type) where
  pre_grasp_posture_ : JointState α
  grasp_posture_ : JointState α
  grasp_pose_to_eef_pose_ : Pose α
  base_link_ : String
  ee_parent_link_ : String
  grasp_depth_ : α
  angle_resolution_ : Int
  approach_retreat_desired_dist_ : α
  approach_retreat_min_dist_ : α

/-- Decimal digits of a natural number, most significant first (`0` is `"0"`). -/
def natDecimal (n : Nat) : List Char :=
  if n = 0 then [Nat.digitChar 0] else ((Nat.digits 10 n).reverse).map Nat.digitChar

/-- The conversion `boost::lexical_cast<std::string>(int)`: the decimal numeral, with a leading `-` for a
negative number. -/
def lexical_cast (n : Int) : String :=
  if n < 0 then String.mk ('-' :: natDecimal n.natAbs)
  else String.mk (natDecimal n.natAbs)

/-- What a call changes: the output vector `possible_grasps` and the function-local
`static int grasp_id` (line 171), which lives as long as the process. -/
structure GenState (α : Type) where
  possible_grasps : List (Grasp α)
  grasp_id : Int

/-- Lines 129-158: the grasp pose in the frame of the block for the angle `theta1`;
`none` is the `return false` of the `Z_AXIS` case. -/
def localGraspPose {α : Type} [LinearOrderedField α] (m : Libm α) (axis : grasp_axis_t)
    (radius theta1 theta2 : α) : Option (Affine3d α) :=
  let yb : α := 0.0
  let xb := radius * m.cos theta1
  let zb := radius * m.sin theta1
  match axis with
  | X_AXIS =>
    let grasp_pose := Affine3d.ofQuaternion
      ((AngleAxisd.mk theta1 UnitX).toQuaternion m
        * (AngleAxisd.mk (-0.5 * m.M_PI) UnitZ).toQuaternion m
        * (AngleAxisd.mk theta2 UnitX).toQuaternion m)
    some { grasp_pose with translation := ![yb, xb, zb] }
  | Y_AXIS =>
    let grasp_pose := Affine3d.ofQuaternion
      ((AngleAxisd.mk (m.M_PI - theta1) UnitY).toQuaternion m
        * (AngleAxisd.mk theta2 UnitX).toQuaternion m)
    some { grasp_pose with translation := ![xb, yb, zb] }
  | Z_AXIS => none

/-- Lines 164-270: the grasp message built by one iteration from its local grasp pose.
The pose written at line 188 for the debug arrow is overwritten at line 214.  The
assignments of lines 85-86 and 91-92 store a `double` of the configuration in a `float32`
field, so they convert it with `toFloat`. -/
def newGrasp {α : Type} [LinearOrderedField α] (m : Libm α)
    (block_global_transform_ : Affine3d α) (grasp_data : RobotGraspData α)
    (grasp_pose : Affine3d α) (theta1 : α) (grasp_id : Int) : Grasp α :=
  let score := m.sin theta1
  let eef_conversion_pose := poseMsgToEigen grasp_data.grasp_pose_to_eef_pose_
  let grasp_pose := grasp_pose * eef_conversion_pose
  let grasp_pose_msg : PoseStamped α :=
    { header := { frame_id := grasp_data.base_link_ }
      pose := poseEigenToMsg m (block_global_transform_ * grasp_pose) }
  let gripper_approach : GripperTranslation α :=
    { direction := { header := { frame_id := grasp_data.ee_parent_link_ }
                     vector := { x := 0, y := 0, z := 1 } }
      desired_distance := m.toFloat grasp_data.approach_retreat_desired_dist_
      min_distance := m.toFloat grasp_data.approach_retreat_min_dist_ }
  let gripper_retreat : GripperTranslation α :=
    { direction := { header := { frame_id := grasp_data.ee_parent_link_ }
                     vector := { x := 0, y := 0, z := -1 } }
      desired_distance := m.toFloat grasp_data.approach_retreat_desired_dist_
      min_distance := m.toFloat grasp_data.approach_retreat_min_dist_ }
  { id := "Grasp" ++ lexical_cast grasp_id
    pre_grasp_posture := grasp_data.pre_grasp_posture_
    grasp_posture := grasp_data.grasp_posture_
    grasp_pose := grasp_pose_msg
    grasp_quality := std_max score 0.1
    approach := gripper_approach
    retreat := gripper_retreat
    max_contact_force := 0
    allowed_touch_objects := [] }

/-- The loop of `generateAxisGrasps` (lines 124-350) from the counter value `i` on, with
the current `theta1`: `for (int i = ...; i <= grasp_data.angle_resolution_; ++i)`. -/
def generateAxisGraspsLoop {α : Type} [LinearOrderedField α] (m : Libm α)
    (block_global_transform_ : Affine3d α) (axis : grasp_axis_t) (theta2 : α)
    (grasp_data : RobotGraspData α) (i : Int) (theta1 : α) (st : GenState α) :
    Bool × GenState α :=
  if i ≤ grasp_data.angle_resolution_ then
    match localGraspPose m axis grasp_data.grasp_depth_ theta1 theta2 with
    | none => (false, st)
    | some grasp_pose =>
      let new_grasp := newGrasp m block_global_transform_ grasp_data grasp_pose theta1
        st.grasp_id
      generateAxisGraspsLoop m block_global_transform_ axis theta2 grasp_data (i + 1)
        (theta1 + m.M_PI / (grasp_data.angle_resolution_ : α))
        { possible_grasps := st.possible_grasps ++ [new_grasp]
          grasp_id := st.grasp_id + 1 }
  else (true, st)
termination_by (grasp_data.angle_resolution_ + 1 - i).toNat
decreasing_by omega

/-- The method `BlockGraspGenerator::generateAxisGrasps` (lines 75-353): the returned flag and the
state after the call. -/
def generateAxisGrasps {α : Type} [LinearOrderedField α] (m : Libm α)
    (block_global_transform_ : Affine3d α) (st : GenState α) (axis : grasp_axis_t)
    (direction : grasp_direction_t) (grasp_data : RobotGraspData α) : Bool × GenState α :=
  let theta1 : α := 0.0
  let theta2 : α := if direction = DOWN then m.M_PI else 0.0
  generateAxisGraspsLoop m block_global_transform_ axis theta2 grasp_data 0 theta1 st

/-- The method `BlockGraspGenerator::generateGrasps` (lines 53-72): the member
`block_global_transform_` is set from `block_pose`, one pass over `Y_AXIS`, `DOWN` is made
and its flag dropped, and `true` is returned. -/
def generateGrasps {α : Type} [LinearOrderedField α] (m : Libm α) (block_pose : Pose α)
    (grasp_data : RobotGraspData α) (st : GenState α) : Bool × GenState α :=
  let block_global_transform_ := poseMsgToEigen block_pose
  let r := generateAxisGrasps m block_global_transform_ st Y_AXIS DOWN grasp_data
  (true, r.2)

/-! ## Definitions used to state the theorems -/

/-- The local grasp pose of a supported axis; for `Z_AXIS`, which has none, the identity. -/
def localPose {α : Type} [LinearOrderedField α] (m : Libm α) (axis : grasp_axis_t)
    (radius theta1 theta2 : α) : Affine3d α :=
  (localGraspPose m axis radius theta1 theta2).getD (Affine3d.ofQuaternion ⟨1, 0, 0, 0⟩)

/-- The flip angle chosen at lines 106-112. -/
def flipAngle {α : Type} [LinearOrderedField α] (m : Libm α) (direction : grasp_direction_t) :
    α :=
  if direction = DOWN then m.M_PI else 0.0

/-- The grasp that a pass started with `theta1 = theta0` and `grasp_id = k` builds in its
iteration number `j`. -/
def passGrasp {α : Type} [LinearOrderedField α] (m : Libm α)
    (block_global_transform_ : Affine3d α) (axis : grasp_axis_t) (theta2 : α)
    (grasp_data : RobotGraspData α) (theta0 : α) (k : Int) (j : Nat) : Grasp α :=
  let theta1 := theta0 + (j : α) * (m.M_PI / (grasp_data.angle_resolution_ : α))
  newGrasp m block_global_transform_ grasp_data
    (localPose m axis grasp_data.grasp_depth_ theta1 theta2) theta1 (k + (j : Int))

/-- The value of `theta1` at the start of iteration `i` of the loop: `0.0` at line 105,
increased by `M_PI / angle_resolution_` at line 168 in every iteration. -/
def theta1_at {α : Type} [LinearOrderedField α] (m : Libm α) (gd : RobotGraspData α) :
    Nat → α
  | 0 => 0.0
  | i + 1 => theta1_at m gd i + m.M_PI / (gd.angle_resolution_ : α)

/-- The value of `theta1` at the start of iteration `i` when the division and the addition
of line 168 are rounded by `fl`: `0.0` at line 105, then
`theta1 += M_PI / angle_resolution_`. -/
def theta1_rounded {α : Type} [LinearOrderedField α] (fl : α → α) (M_PI : α)
    (angle_resolution_ : Int) : Nat → α
  | 0 => 0.0
  | i + 1 => fl (theta1_rounded fl M_PI angle_resolution_ i + fl (M_PI / (angle_resolution_ : α)))

/-- The grasps that a call appended to the prior content `st` of the output vector. -/
def newGrasps {α : Type} (st : GenState α) (r : Bool × GenState α) : List (Grasp α) :=
  r.2.possible_grasps.drop st.possible_grasps.length

/-- The digits written by `natDecimal`, as numbers. -/
def decimalDigits (n : Nat) : List Nat :=
  if n = 0 then [0] else (Nat.digits 10 n).reverse

/-- Squared norm of a quaternion. -/
def Quaterniond.normSq {α : Type} [LinearOrderedField α] (q : Quaterniond α) : α :=
  q.w * q.w + q.x * q.x + q.y * q.y + q.z * q.z

/-- The opposite quaternion. -/
def Quaterniond.neg {α : Type} [LinearOrderedField α] (q : Quaterniond α) : Quaterniond α :=
  { w := -q.w, x := -q.x, y := -q.y, z := -q.z }

/-- The orientation of a pose message as an Eigen quaternion. -/
def Pose.rotation {α : Type} (p : Pose α) : Quaterniond α :=
  { w := p.orientation.w, x := p.orientation.x, y := p.orientation.y, z := p.orientation.z }

/-- A pose message is a rigid transform when its orientation is a unit quaternion. -/
def Pose.IsRigid {α : Type} [LinearOrderedField α] (p : Pose α) : Prop :=
  p.rotation.normSq = 1

/-- An affine transform is rigid when its linear part is the rotation matrix of a unit
quaternion. -/
def Affine3d.IsRigid {α : Type} [LinearOrderedField α] (e : Affine3d α) : Prop :=
  ∃ q : Quaterniond α, q.normSq = 1 ∧ e.linear = q.toRotationMatrix

/-- The conjugate quaternion. -/
def Quaterniond.conj {α : Type} [LinearOrderedField α] (q : Quaterniond α) : Quaterniond α :=
  { w := q.w, x := -q.x, y := -q.y, z := -q.z }

/-- The inverse of a rigid transform with the rotation `q`: the rotation is the conjugate
of `q`, and the translation is turned back by it. -/
def Affine3d.rigidInverse {α : Type} [LinearOrderedField α] (q : Quaterniond α)
    (e : Affine3d α) : Affine3d α :=
  { linear := q.conj.toRotationMatrix
    translation := - q.conj.toRotationMatrix.mulVec e.translation }

/-- The rotation by the angle `a` about the x axis, as a matrix. -/
def rotX {α : Type} [LinearOrderedField α] (m : Libm α) (a : α) : Matrix (Fin 3) (Fin 3) α :=
  !![1, 0, 0;
     0, m.cos a, -m.sin a;
     0, m.sin a, m.cos a]

/-- The rotation by the angle `a` about the y axis, as a matrix. -/
def rotY {α : Type} [LinearOrderedField α] (m : Libm α) (a : α) : Matrix (Fin 3) (Fin 3) α :=
  !![m.cos a, 0, m.sin a;
     0, 1, 0;
     -m.sin a, 0, m.cos a]

/-- The rotation by the angle `a` about the z axis, as a matrix. -/
def rotZ {α : Type} [LinearOrderedField α] (m : Libm α) (a : α) : Matrix (Fin 3) (Fin 3) α :=
  !![m.cos a, -m.sin a, 0;
     m.sin a, m.cos a, 0;
     0, 0, 1]

/-! ## A process run -/

/-- What lives between two calls: the member `block_global_transform_` of the generator
object, written by `generateGrasps` (line 58), and the function-local `static int grasp_id`
(line 171). -/
structure Generator (α : Type) where
  block_global_transform_ : Affine3d α
  grasp_id : Int

/-- A call of one of the two generating methods, with the output vector the caller passes
in. -/
inductive Call (α : Type) where
  | generateGrasps (block_pose : Pose α) (grasp_data : RobotGraspData α)
      (possible_grasps : List (Grasp α))
  | generateAxisGrasps (possible_grasps : List (Grasp α)) (axis : grasp_axis_t)
      (direction : grasp_direction_t) (grasp_data : RobotGraspData α)

/-- One call on the generator: the generator after the call and the grasps that the call
appended to its output vector. -/
def Generator.call {α : Type} [LinearOrderedField α] (m : Libm α) (s : Generator α) :
    Call α → Generator α × List (Grasp α)
  | Call.generateGrasps block_pose grasp_data possible_grasps =>
    let r := generateGrasps m block_pose grasp_data ⟨possible_grasps, s.grasp_id⟩
    ({ block_global_transform_ := poseMsgToEigen block_pose, grasp_id := r.2.grasp_id },
      newGrasps ⟨possible_grasps, s.grasp_id⟩ r)
  | Call.generateAxisGrasps possible_grasps axis direction grasp_data =>
    let r := generateAxisGrasps m s.block_global_transform_ ⟨possible_grasps, s.grasp_id⟩
      axis direction grasp_data
    ({ block_global_transform_ := s.block_global_transform_, grasp_id := r.2.grasp_id },
      newGrasps ⟨possible_grasps, s.grasp_id⟩ r)

/-- A sequence of calls in one process: the generator at the end and all the grasps
produced, in the order of their production. -/
def Generator.run {α : Type} [LinearOrderedField α] (m : Libm α) :
    Generator α → List (Call α) → Generator α × List (Grasp α)
  | s, [] => (s, [])
  | s, c :: cs =>
    let r := s.call m c
    let r' := Generator.run m r.1 cs
    (r'.1, r.2 ++ r'.2)

/-! ## Example inputs -/

/-- The pose at the origin with the identity rotation. -/
def identityPose {α : Type} [LinearOrderedField α] : Pose α :=
  { position := { x := 0, y := 0, z := 0 }
    orientation := { x := 0, y := 0, z := 0, w := 1 } }

/-- A posture without joints. -/
def emptyPosture {α : Type} : JointState α :=
  { name := [], position := [], velocity := [], effort := [] }

/-- A configuration with grasp depth `0.12`, no end-effector correction and the given
angle resolution. -/
def exampleGraspData {α : Type} [LinearOrderedField α] (R : Int) : RobotGraspData α :=
  { pre_grasp_posture_ := emptyPosture
    grasp_posture_ := emptyPosture
    grasp_pose_to_eef_pose_ := identityPose
    base_link_ := "base_link"
    ee_parent_link_ := "gripper_link"
    grasp_depth_ := 0.12
    angle_resolution_ := R
    approach_retreat_desired_dist_ := 0.05
    approach_retreat_min_dist_ := 0.025 }

/-- A rigid pose that is not the identity: position `(1, 2, 3)`, orientation
`(x, y, z, w) = (0.6, 0, 0, 0.8)`. -/
def examplePose {α : Type} [LinearOrderedField α] : Pose α :=
  { position := { x := 1, y := 2, z := 3 }
    orientation := { x := 0.6, y := 0, z := 0, w := 0.8 } }

/-- The block pose of the second scenario: position `(1, 2, 3)`, identity rotation. -/
def translatedPose {α : Type} [LinearOrderedField α] : Pose α :=
  { position := { x := 1, y := 2, z := 3 }
    orientation := { x := 0, y := 0, z := 0, w := 1 } }

/-- A pose whose orientation is not a unit quaternion: `(x, y, z, w) = (0, 0, 0, 2)`. -/
def stretchedPose {α : Type} [LinearOrderedField α] : Pose α :=
  { position := { x := 0, y := 0, z := 0 }
    orientation := { x := 0, y := 0, z := 0, w := 2 } }

/-- The configuration of the second scenario: grasp depth `0.1`, resolution `1`, and the
end-effector correction `examplePose`. -/
def scenarioGraspData {α : Type} [LinearOrderedField α] : RobotGraspData α :=
  { exampleGraspData 1 with
    grasp_depth_ := 0.1
    grasp_pose_to_eef_pose_ := examplePose }

/-- A configuration with the postures of a two-finger gripper. -/
def gripperGraspData {α : Type} [LinearOrderedField α] (R : Int) : RobotGraspData α :=
  { exampleGraspData R with
    pre_grasp_posture_ :=
      { name := ["left_finger", "right_finger"], position := [0.04, 0.04], velocity := [],
        effort := [] }
    grasp_posture_ :=
      { name := ["left_finger", "right_finger"], position := [0.01, 0.01], velocity := [],
        effort := [5, 5] } }

/-! # Theorems -/

/-! ## Shape of one pass -/

theorem localGraspPose_eq_some {α : Type} [LinearOrderedField α] (m : Libm α)
    (axis : grasp_axis_t) (radius theta1 theta2 : α) (h : axis ≠ Z_AXIS) :
    localGraspPose m axis radius theta1 theta2
      = some (localPose m axis radius theta1 theta2) := by
  cases axis with
  | X_AXIS => simp [localPose, localGraspPose]
  | Y_AXIS => simp [localPose, localGraspPose]
  | Z_AXIS => exact absurd rfl h

theorem loop_Z_AXIS {α : Type} [LinearOrderedField α] (m : Libm α) (bgt : Affine3d α)
    (theta2 : α) (gd : RobotGraspData α) (i : Int) (theta1 : α) (st : GenState α) :
    generateAxisGraspsLoop m bgt Z_AXIS theta2 gd i theta1 st
      = (decide (¬ i ≤ gd.angle_resolution_), st) := by
  rw [generateAxisGraspsLoop]
  by_cases h : i ≤ gd.angle_resolution_
  · simp [h, localGraspPose]
  · simp [h]

theorem loop_done {α : Type} [LinearOrderedField α] (m : Libm α) (bgt : Affine3d α)
    (axis : grasp_axis_t) (theta2 : α) (gd : RobotGraspData α) (i : Int) (theta1 : α)
    (st : GenState α) (h : ¬ i ≤ gd.angle_resolution_) :
    generateAxisGraspsLoop m bgt axis theta2 gd i theta1 st = (true, st) := by
  rw [generateAxisGraspsLoop]
  simp [h]

theorem loop_step {α : Type} [LinearOrderedField α] (m : Libm α) (bgt : Affine3d α)
    (axis : grasp_axis_t) (theta2 : α) (gd : RobotGraspData α) (i : Int) (theta1 : α)
    (st : GenState α) (h : i ≤ gd.angle_resolution_) (hax : axis ≠ Z_AXIS) :
    generateAxisGraspsLoop m bgt axis theta2 gd i theta1 st
      = generateAxisGraspsLoop m bgt axis theta2 gd (i + 1)
          (theta1 + m.M_PI / (gd.angle_resolution_ : α))
          { possible_grasps := st.possible_grasps
              ++ [newGrasp m bgt gd (localPose m axis gd.grasp_depth_ theta1 theta2) theta1
                    st.grasp_id]
            grasp_id := st.grasp_id + 1 } := by
  rw [generateAxisGraspsLoop]
  simp [h, localGraspPose_eq_some m axis _ _ _ hax]

/-- The loop over a supported axis, with `n` iterations left, appends the `n` grasps
`passGrasp 0, ..., passGrasp (n - 1)` and advances `grasp_id` by `n`. -/
theorem loop_eq {α : Type} [LinearOrderedField α] (m : Libm α) (bgt : Affine3d α)
    (axis : grasp_axis_t) (theta2 : α) (gd : RobotGraspData α) (hax : axis ≠ Z_AXIS)
    (n : Nat) : ∀ (i : Int) (theta1 : α) (st : GenState α),
      (gd.angle_resolution_ + 1 - i).toNat = n →
      generateAxisGraspsLoop m bgt axis theta2 gd i theta1 st
        = (true, { possible_grasps := st.possible_grasps
                      ++ (List.range n).map (passGrasp m bgt axis theta2 gd theta1 st.grasp_id)
                   grasp_id := st.grasp_id + (n : Int) }) := by
  induction n with
  | zero =>
    intro i theta1 st hn
    rw [loop_done m bgt axis theta2 gd i theta1 st (by omega)]
    simp
  | succ n ih =>
    intro i theta1 st hn
    rw [loop_step m bgt axis theta2 gd i theta1 st (by omega) hax,
      ih (i + 1) _ _ (by omega)]
    have hmap : (List.range (n + 1)).map (passGrasp m bgt axis theta2 gd theta1 st.grasp_id)
        = newGrasp m bgt gd (localPose m axis gd.grasp_depth_ theta1 theta2) theta1
            st.grasp_id
          :: (List.range n).map (passGrasp m bgt axis theta2 gd
                (theta1 + m.M_PI / (gd.angle_resolution_ : α)) (st.grasp_id + 1)) := by
      rw [List.range_succ_eq_map, List.map_cons, List.map_map]
      congr 1
      · simp [passGrasp]
      · apply List.map_congr_left
        intro j _
        simp only [passGrasp, Function.comp_apply, Nat.cast_succ]
        have e1 : theta1 + ((j : α) + 1) * (m.M_PI / (gd.angle_resolution_ : α))
            = theta1 + m.M_PI / (gd.angle_resolution_ : α)
              + (j : α) * (m.M_PI / (gd.angle_resolution_ : α)) := by ring
        have e2 : st.grasp_id + ((j : Int) + 1) = st.grasp_id + 1 + (j : Int) := by ring
        rw [e1, e2]
    have e3 : st.grasp_id + 1 + (n : Int) = st.grasp_id + ((n + 1 : Nat) : Int) := by
      push_cast; ring
    rw [hmap, e3]
    simp only [List.append_assoc, List.singleton_append]

/-- One pass over a supported axis: the flag is `true`, and the pass appends
`angle_resolution_ + 1` grasps (none when that number is negative). -/
theorem generateAxisGrasps_eq {α : Type} [LinearOrderedField α] (m : Libm α)
    (bgt : Affine3d α) (st : GenState α) (axis : grasp_axis_t)
    (direction : grasp_direction_t) (gd : RobotGraspData α) (hax : axis ≠ Z_AXIS) :
    generateAxisGrasps m bgt st axis direction gd
      = (true, { possible_grasps := st.possible_grasps
                    ++ (List.range (gd.angle_resolution_ + 1).toNat).map
                        (passGrasp m bgt axis (flipAngle m direction) gd 0 st.grasp_id)
                 grasp_id := st.grasp_id + ((gd.angle_resolution_ + 1).toNat : Int) }) := by
  have h := loop_eq m bgt axis (flipAngle m direction) gd hax
    (gd.angle_resolution_ + 1).toNat 0 0 st (by simp)
  have z : (0.0 : α) = 0 := by norm_num
  simp only [generateAxisGrasps, flipAngle, z] at h ⊢
  exact h

theorem newGrasps_generateAxisGrasps {α : Type} [LinearOrderedField α] (m : Libm α)
    (bgt : Affine3d α) (st : GenState α) (axis : grasp_axis_t)
    (direction : grasp_direction_t) (gd : RobotGraspData α) (hax : axis ≠ Z_AXIS) :
    newGrasps st (generateAxisGrasps m bgt st axis direction gd)
      = (List.range (gd.angle_resolution_ + 1).toNat).map
          (passGrasp m bgt axis (flipAngle m direction) gd 0 st.grasp_id) := by
  rw [generateAxisGrasps_eq m bgt st axis direction gd hax]
  simp [newGrasps]

theorem generateGrasps_eq {α : Type} [LinearOrderedField α] (m : Libm α) (block_pose : Pose α)
    (gd : RobotGraspData α) (st : GenState α) :
    generateGrasps m block_pose gd st
      = (true, { possible_grasps := st.possible_grasps
                    ++ (List.range (gd.angle_resolution_ + 1).toNat).map
                        (passGrasp m (poseMsgToEigen block_pose) Y_AXIS m.M_PI gd 0
                          st.grasp_id)
                 grasp_id := st.grasp_id + ((gd.angle_resolution_ + 1).toNat : Int) }) := by
  simp [generateGrasps, generateAxisGrasps_eq m (poseMsgToEigen block_pose) st Y_AXIS DOWN gd
    (by decide), flipAngle]

theorem newGrasps_generateGrasps {α : Type} [LinearOrderedField α] (m : Libm α)
    (block_pose : Pose α) (gd : RobotGraspData α) (st : GenState α) :
    newGrasps st (generateGrasps m block_pose gd st)
      = (List.range (gd.angle_resolution_ + 1).toNat).map
          (passGrasp m (poseMsgToEigen block_pose) Y_AXIS m.M_PI gd 0 st.grasp_id) := by
  rw [generateGrasps_eq]
  simp [newGrasps]

theorem newGrasps_Z_AXIS {α : Type} [LinearOrderedField α] (m : Libm α)
    (bgt : Affine3d α) (st : GenState α) (direction : grasp_direction_t)
    (gd : RobotGraspData α) :
    newGrasps st (generateAxisGrasps m bgt st Z_AXIS direction gd) = [] := by
  simp [newGrasps, generateAxisGrasps, loop_Z_AXIS]

/-- Every grasp appended by a pass is one of the `passGrasp`s of that pass. -/
theorem mem_newGrasps {α : Type} [LinearOrderedField α] (m : Libm α)
    (bgt : Affine3d α) (st : GenState α) (axis : grasp_axis_t)
    (direction : grasp_direction_t) (gd : RobotGraspData α) (g : Grasp α)
    (hg : g ∈ newGrasps st (generateAxisGrasps m bgt st axis direction gd)) :
    ∃ j : Nat, j < (gd.angle_resolution_ + 1).toNat
      ∧ g = passGrasp m bgt axis (flipAngle m direction) gd 0 st.grasp_id j := by
  by_cases hax : axis = Z_AXIS
  · subst hax
    rw [newGrasps_Z_AXIS] at hg
    simp at hg
  · rw [newGrasps_generateAxisGrasps m bgt st axis direction gd hax] at hg
    simp only [List.mem_map, List.mem_range] at hg
    obtain ⟨j, hj, rfl⟩ := hg
    exact ⟨j, hj, rfl⟩

/-- The grasp of iteration `j` is among the grasps appended by a pass over a supported
axis. -/
theorem passGrasp_mem_newGrasps {α : Type} [LinearOrderedField α] (m : Libm α)
    (bgt : Affine3d α) (st : GenState α) (axis : grasp_axis_t)
    (direction : grasp_direction_t) (gd : RobotGraspData α) (hax : axis ≠ Z_AXIS) (j : Nat)
    (hj : (j : Int) ≤ gd.angle_resolution_) :
    passGrasp m bgt axis (flipAngle m direction) gd 0 st.grasp_id j
      ∈ newGrasps st (generateAxisGrasps m bgt st axis direction gd) := by
  rw [newGrasps_generateAxisGrasps m bgt st axis direction gd hax]
  exact List.mem_map.mpr ⟨j, List.mem_range.mpr (by omega), rfl⟩

/-! ## Sample angles -/

theorem theta1_at_eq {α : Type} [LinearOrderedField α] (m : Libm α) (gd : RobotGraspData α)
    (i : Nat) : theta1_at m gd i = (i : α) * (m.M_PI / (gd.angle_resolution_ : α)) := by
  induction i with
  | zero => norm_num [theta1_at]
  | succ i ih =>
    rw [theta1_at, ih]
    push_cast
    ring

/-- The grasp of iteration `j` of a whole pass is built from the angle `theta1_at j`. -/
theorem passGrasp_eq {α : Type} [LinearOrderedField α] (m : Libm α) (bgt : Affine3d α)
    (axis : grasp_axis_t) (theta2 : α) (gd : RobotGraspData α) (k : Int) (j : Nat) :
    passGrasp m bgt axis theta2 gd 0 k j
      = newGrasp m bgt gd (localPose m axis gd.grasp_depth_ (theta1_at m gd j) theta2)
          (theta1_at m gd j) (k + (j : Int)) := by
  simp [passGrasp, theta1_at_eq]

theorem std_max_eq_max {α : Type} [LinearOrderedField α] (a b : α) : std_max a b = max a b := by
  unfold std_max
  rcases lt_trichotomy a b with h | h | h
  · rw [if_pos h, max_eq_right h.le]
  · rw [if_neg (by rw [h]; exact lt_irrefl b), h, max_self]
  · rw [if_neg (not_lt.mpr h.le), max_eq_left h.le]

/-- The grasp number `i` appended by a pass over a supported axis. -/
theorem newGrasps_getElem? {α : Type} [LinearOrderedField α] (m : Libm α)
    (bgt : Affine3d α) (st : GenState α) (axis : grasp_axis_t)
    (direction : grasp_direction_t) (gd : RobotGraspData α)
    (hax : axis = X_AXIS ∨ axis = Y_AXIS) (i : Nat) (hi : (i : Int) ≤ gd.angle_resolution_) :
    (newGrasps st (generateAxisGrasps m bgt st axis direction gd))[i]?
      = some (newGrasp m bgt gd
          (localPose m axis gd.grasp_depth_ (theta1_at m gd i) (flipAngle m direction))
          (theta1_at m gd i) (st.grasp_id + (i : Int))) := by
  have hax' : axis ≠ Z_AXIS := by rcases hax with h | h <;> simp [h]
  have hlt : i < (gd.angle_resolution_ + 1).toNat := by omega
  rw [newGrasps_generateAxisGrasps m bgt st axis direction gd hax']
  simp [hlt, passGrasp_eq]

/-! ## Decimal numerals -/

theorem natDecimal_eq (n : Nat) : natDecimal n = (decimalDigits n).map Nat.digitChar := by
  unfold natDecimal decimalDigits
  split <;> rfl

theorem decimalDigits_lt (n d : Nat) (h : d ∈ decimalDigits n) : d < 10 := by
  unfold decimalDigits at h
  split at h
  · simp at h; omega
  · exact Nat.digits_lt_base (by norm_num) (List.mem_reverse.mp h)

theorem ofDigits_decimalDigits (n : Nat) : Nat.ofDigits 10 (decimalDigits n).reverse = n := by
  unfold decimalDigits
  split
  · next h => simp [h, Nat.ofDigits]
  · simp [Nat.ofDigits_digits]

theorem digitChar_inj (a b : Nat) (ha : a < 10) (hb : b < 10)
    (h : Nat.digitChar a = Nat.digitChar b) : a = b := by
  interval_cases a <;> interval_cases b <;> first | rfl | exact absurd h (by decide)

theorem digitChar_ne_minus (a : Nat) (ha : a < 10) : Nat.digitChar a ≠ '-' := by
  interval_cases a <;> decide

theorem map_digitChar_inj : ∀ (l₁ l₂ : List Nat), (∀ d ∈ l₁, d < 10) → (∀ d ∈ l₂, d < 10) →
    l₁.map Nat.digitChar = l₂.map Nat.digitChar → l₁ = l₂
  | [], [], _, _, _ => rfl
  | [], _ :: _, _, _, h => by simp at h
  | _ :: _, [], _, _, h => by simp at h
  | a :: l₁, b :: l₂, h₁, h₂, h => by
    simp only [List.map_cons, List.cons.injEq] at h
    have hab := digitChar_inj a b (h₁ a (by simp)) (h₂ b (by simp)) h.1
    have hl := map_digitChar_inj l₁ l₂ (fun d hd => h₁ d (by simp [hd]))
      (fun d hd => h₂ d (by simp [hd])) h.2
    rw [hab, hl]

theorem natDecimal_inj (a b : Nat) (h : natDecimal a = natDecimal b) : a = b := by
  rw [natDecimal_eq, natDecimal_eq] at h
  have hd := map_digitChar_inj _ _ (decimalDigits_lt a) (decimalDigits_lt b) h
  rw [← ofDigits_decimalDigits a, ← ofDigits_decimalDigits b, hd]

theorem minus_not_mem_natDecimal (n : Nat) : '-' ∉ natDecimal n := by
  rw [natDecimal_eq]
  intro h
  obtain ⟨d, hd, hc⟩ := List.mem_map.mp h
  exact digitChar_ne_minus d (decimalDigits_lt n d hd) hc

theorem lexical_cast_inj (a b : Int) (h : lexical_cast a = lexical_cast b) : a = b := by
  unfold lexical_cast at h
  by_cases ha : a < 0 <;> by_cases hb : b < 0
  · rw [if_pos ha, if_pos hb] at h
    have h' : '-' :: natDecimal a.natAbs = '-' :: natDecimal b.natAbs := congrArg String.data h
    have := natDecimal_inj _ _ (List.cons.inj h').2
    omega
  · rw [if_pos ha, if_neg hb] at h
    have h' : '-' :: natDecimal a.natAbs = natDecimal b.natAbs := congrArg String.data h
    exact absurd (h' ▸ List.mem_cons_self _ _) (minus_not_mem_natDecimal _)
  · rw [if_neg ha, if_pos hb] at h
    have h' : natDecimal a.natAbs = '-' :: natDecimal b.natAbs := congrArg String.data h
    exact absurd (h' ▸ List.mem_cons_self _ _) (minus_not_mem_natDecimal _)
  · rw [if_neg ha, if_neg hb] at h
    have h' : natDecimal a.natAbs = natDecimal b.natAbs := congrArg String.data h
    have := natDecimal_inj _ _ h'
    omega

theorem append_inj (p s t : String) (h : p ++ s = p ++ t) : s = t := by
  have := congrArg String.data h
  simp only [String.data_append] at this
  exact String.ext (List.append_cancel_left this)

theorem passGrasp_id {α : Type} [LinearOrderedField α] (m : Libm α) (bgt : Affine3d α)
    (axis : grasp_axis_t) (theta2 : α) (gd : RobotGraspData α) (theta0 : α) (k : Int)
    (j : Nat) :
    (passGrasp m bgt axis theta2 gd theta0 k j).id = "Grasp" ++ lexical_cast (k + (j : Int)) := by
  simp [passGrasp, newGrasp]

theorem grasp_id_injective (k : Int) :
    Function.Injective (fun i : Nat => "Grasp" ++ lexical_cast (k + (i : Int))) := by
  intro i j h
  have := lexical_cast_inj _ _ (append_inj _ _ _ h)
  omega

/-! ## Quaternions and rotation matrices -/

theorem toRotationMatrix_neg {α : Type} [LinearOrderedField α] (q : Quaterniond α) :
    q.neg.toRotationMatrix = q.toRotationMatrix := by
  simp only [Quaterniond.toRotationMatrix, Quaterniond.neg]
  congr 1
  ring_nf

theorem ofRotationMatrix_trace_pos {α : Type} [LinearOrderedField α] (m : Libm α)
    (mat : Matrix (Fin 3) (Fin 3) α) (h : mat 0 0 + mat 1 1 + mat 2 2 > 0) :
    Quaterniond.ofRotationMatrix m mat
      = { w := 0.5 * m.sqrt (mat 0 0 + mat 1 1 + mat 2 2 + 1.0)
          x := (mat 2 1 - mat 1 2) * (0.5 / m.sqrt (mat 0 0 + mat 1 1 + mat 2 2 + 1.0))
          y := (mat 0 2 - mat 2 0) * (0.5 / m.sqrt (mat 0 0 + mat 1 1 + mat 2 2 + 1.0))
          z := (mat 1 0 - mat 0 1) * (0.5 / m.sqrt (mat 0 0 + mat 1 1 + mat 2 2 + 1.0)) } := by
  simp only [Quaterniond.ofRotationMatrix, if_pos h]

theorem ofRotationMatrix_i0 {α : Type} [LinearOrderedField α] (m : Libm α)
    (mat : Matrix (Fin 3) (Fin 3) α) (h : ¬ mat 0 0 + mat 1 1 + mat 2 2 > 0)
    (h1 : ¬ mat 1 1 > mat 0 0) (h2 : ¬ mat 2 2 > mat 0 0) :
    Quaterniond.ofRotationMatrix m mat
      = { w := (mat 2 1 - mat 1 2) * (0.5 / m.sqrt (mat 0 0 - mat 1 1 - mat 2 2 + 1.0))
          x := 0.5 * m.sqrt (mat 0 0 - mat 1 1 - mat 2 2 + 1.0)
          y := (mat 1 0 + mat 0 1) * (0.5 / m.sqrt (mat 0 0 - mat 1 1 - mat 2 2 + 1.0))
          z := (mat 2 0 + mat 0 2) * (0.5 / m.sqrt (mat 0 0 - mat 1 1 - mat 2 2 + 1.0)) } := by
  simp [Quaterniond.ofRotationMatrix, h, h1, h2]

theorem ofRotationMatrix_i1 {α : Type} [LinearOrderedField α] (m : Libm α)
    (mat : Matrix (Fin 3) (Fin 3) α) (h : ¬ mat 0 0 + mat 1 1 + mat 2 2 > 0)
    (h1 : mat 1 1 > mat 0 0) (h2 : ¬ mat 2 2 > mat 1 1) :
    Quaterniond.ofRotationMatrix m mat
      = { w := (mat 0 2 - mat 2 0) * (0.5 / m.sqrt (mat 1 1 - mat 2 2 - mat 0 0 + 1.0))
          x := (mat 0 1 + mat 1 0) * (0.5 / m.sqrt (mat 1 1 - mat 2 2 - mat 0 0 + 1.0))
          y := 0.5 * m.sqrt (mat 1 1 - mat 2 2 - mat 0 0 + 1.0)
          z := (mat 2 1 + mat 1 2) * (0.5 / m.sqrt (mat 1 1 - mat 2 2 - mat 0 0 + 1.0)) } := by
  simp [Quaterniond.ofRotationMatrix, h, h1, h2]

theorem ofRotationMatrix_i2 {α : Type} [LinearOrderedField α] (m : Libm α)
    (mat : Matrix (Fin 3) (Fin 3) α) (h : ¬ mat 0 0 + mat 1 1 + mat 2 2 > 0)
    (h2 : mat 2 2 > mat (if mat 1 1 > mat 0 0 then 1 else 0)
      (if mat 1 1 > mat 0 0 then 1 else 0)) :
    Quaterniond.ofRotationMatrix m mat
      = { w := (mat 1 0 - mat 0 1) * (0.5 / m.sqrt (mat 2 2 - mat 0 0 - mat 1 1 + 1.0))
          x := (mat 0 2 + mat 2 0) * (0.5 / m.sqrt (mat 2 2 - mat 0 0 - mat 1 1 + 1.0))
          y := (mat 1 2 + mat 2 1) * (0.5 / m.sqrt (mat 2 2 - mat 0 0 - mat 1 1 + 1.0))
          z := 0.5 * m.sqrt (mat 2 2 - mat 0 0 - mat 1 1 + 1.0) } := by
  simp [Quaterniond.ofRotationMatrix, h, h2]

theorem sqrt_branch (a s : ℝ) (ha : a ≠ 0) (hs : s = 4 * a * a) :
    (0.5 * Real.sqrt s = a ∧ ∀ b : ℝ, 4 * a * b * (0.5 / Real.sqrt s) = b)
    ∨ (0.5 * Real.sqrt s = -a ∧ ∀ b : ℝ, 4 * a * b * (0.5 / Real.sqrt s) = -b) := by
  rcases lt_or_gt_of_ne ha with hneg | hpos
  · right
    have h : Real.sqrt s = -(2 * a) := by
      have e : s = (-(2 * a)) ^ 2 := by rw [hs]; ring
      rw [e, Real.sqrt_sq (by linarith)]
    rw [h]
    refine ⟨by norm_num; ring, fun b => ?_⟩
    field_simp
    ring
  · left
    have h : Real.sqrt s = 2 * a := by
      have e : s = (2 * a) ^ 2 := by rw [hs]; ring
      rw [e, Real.sqrt_sq (by linarith)]
    rw [h]
    refine ⟨by norm_num; ring, fun b => ?_⟩
    field_simp
    ring

theorem ofRotationMatrix_toRotationMatrix (q : Quaterniond ℝ) (hq : q.normSq = 1) :
    Quaterniond.ofRotationMatrix (Libm.mk Real.sin Real.cos Real.sqrt Real.pi toFloat32)
        q.toRotationMatrix = q
    ∨ Quaterniond.ofRotationMatrix (Libm.mk Real.sin Real.cos Real.sqrt Real.pi toFloat32)
        q.toRotationMatrix = q.neg := by
  obtain ⟨w, x, y, z⟩ := q
  simp only [Quaterniond.normSq] at hq
  have e00 : (Quaterniond.mk w x y z).toRotationMatrix 0 0 = 1 - (2 * y * y + 2 * z * z) := rfl
  have e01 : (Quaterniond.mk w x y z).toRotationMatrix 0 1 = 2 * y * x - 2 * z * w := rfl
  have e02 : (Quaterniond.mk w x y z).toRotationMatrix 0 2 = 2 * z * x + 2 * y * w := rfl
  have e10 : (Quaterniond.mk w x y z).toRotationMatrix 1 0 = 2 * y * x + 2 * z * w := rfl
  have e11 : (Quaterniond.mk w x y z).toRotationMatrix 1 1 = 1 - (2 * x * x + 2 * z * z) := rfl
  have e12 : (Quaterniond.mk w x y z).toRotationMatrix 1 2 = 2 * z * y - 2 * x * w := rfl
  have e20 : (Quaterniond.mk w x y z).toRotationMatrix 2 0 = 2 * z * x - 2 * y * w := rfl
  have e21 : (Quaterniond.mk w x y z).toRotationMatrix 2 1 = 2 * z * y + 2 * x * w := rfl
  have e22 : (Quaterniond.mk w x y z).toRotationMatrix 2 2 = 1 - (2 * x * x + 2 * y * y) := rfl
  simp only [Quaterniond.neg]
  by_cases ht : (Quaterniond.mk w x y z).toRotationMatrix 0 0
      + (Quaterniond.mk w x y z).toRotationMatrix 1 1
      + (Quaterniond.mk w x y z).toRotationMatrix 2 2 > 0
  · rw [ofRotationMatrix_trace_pos _ _ ht]
    rw [e00, e11, e22] at ht
    simp only [e00, e01, e02, e10, e11, e12, e20, e21, e22]
    have hw : w ≠ 0 := by
      rintro rfl
      nlinarith [sq_nonneg x, sq_nonneg y, sq_nonneg z]
    have hs : 1 - (2 * y * y + 2 * z * z) + (1 - (2 * x * x + 2 * z * z))
        + (1 - (2 * x * x + 2 * y * y)) + 1.0 = 4 * w * w := by
      norm_num
      linarith
    have b1 : 2 * z * y + 2 * x * w - (2 * z * y - 2 * x * w) = 4 * w * x := by ring
    have b2 : 2 * z * x + 2 * y * w - (2 * z * x - 2 * y * w) = 4 * w * y := by ring
    have b3 : 2 * y * x + 2 * z * w - (2 * y * x - 2 * z * w) = 4 * w * z := by ring
    rw [b1, b2, b3]
    rcases sqrt_branch w _ hw hs with ⟨h1, h2⟩ | ⟨h1, h2⟩
    · left
      rw [h1, h2, h2, h2]
    · right
      rw [h1, h2, h2, h2]
  · rw [e00, e11, e22] at ht
    by_cases h1 : (Quaterniond.mk w x y z).toRotationMatrix 1 1
        > (Quaterniond.mk w x y z).toRotationMatrix 0 0
    · by_cases h2 : (Quaterniond.mk w x y z).toRotationMatrix 2 2
          > (Quaterniond.mk w x y z).toRotationMatrix 1 1
      · rw [ofRotationMatrix_i2 _ _ (by rw [e00, e11, e22]; exact ht) (by rw [if_pos h1]; exact h2)]
        rw [e00, e11] at h1
        rw [e11, e22] at h2
        simp only [e00, e01, e02, e10, e11, e12, e20, e21, e22]
        have hz : z ≠ 0 := by
          rintro rfl
          nlinarith [sq_nonneg x, sq_nonneg y, sq_nonneg w]
        have hs : 1 - (2 * x * x + 2 * y * y) - (1 - (2 * y * y + 2 * z * z))
            - (1 - (2 * x * x + 2 * z * z)) + 1.0 = 4 * z * z := by
          norm_num
          ring
        have b1 : 2 * y * x + 2 * z * w - (2 * y * x - 2 * z * w) = 4 * z * w := by ring
        have b2 : 2 * z * x + 2 * y * w + (2 * z * x - 2 * y * w) = 4 * z * x := by ring
        have b3 : 2 * z * y - 2 * x * w + (2 * z * y + 2 * x * w) = 4 * z * y := by ring
        rw [b1, b2, b3]
        rcases sqrt_branch z _ hz hs with ⟨k1, k2⟩ | ⟨k1, k2⟩
        · left
          rw [k1, k2, k2, k2]
        · right
          rw [k1, k2, k2, k2]
      · rw [ofRotationMatrix_i1 _ _ (by rw [e00, e11, e22]; exact ht) h1 h2]
        rw [e00, e11] at h1
        rw [e11, e22] at h2
        simp only [e00, e01, e02, e10, e11, e12, e20, e21, e22]
        have hy : y ≠ 0 := by
          rintro rfl
          nlinarith [sq_nonneg x, sq_nonneg z, sq_nonneg w]
        have hs : 1 - (2 * x * x + 2 * z * z) - (1 - (2 * x * x + 2 * y * y))
            - (1 - (2 * y * y + 2 * z * z)) + 1.0 = 4 * y * y := by
          norm_num
          ring
        have b1 : 2 * z * x + 2 * y * w - (2 * z * x - 2 * y * w) = 4 * y * w := by ring
        have b2 : 2 * y * x - 2 * z * w + (2 * y * x + 2 * z * w) = 4 * y * x := by ring
        have b3 : 2 * z * y + 2 * x * w + (2 * z * y - 2 * x * w) = 4 * y * z := by ring
        rw [b1, b2, b3]
        rcases sqrt_branch y _ hy hs with ⟨k1, k2⟩ | ⟨k1, k2⟩
        · left
          rw [k1, k2, k2, k2]
        · right
          rw [k1, k2, k2, k2]
    · by_cases h2 : (Quaterniond.mk w x y z).toRotationMatrix 2 2
          > (Quaterniond.mk w x y z).toRotationMatrix 0 0
      · rw [ofRotationMatrix_i2 _ _ (by rw [e00, e11, e22]; exact ht) (by rw [if_neg h1]; exact h2)]
        rw [e00, e11] at h1
        rw [e00, e22] at h2
        simp only [e00, e01, e02, e10, e11, e12, e20, e21, e22]
        have hz : z ≠ 0 := by
          rintro rfl
          nlinarith [sq_nonneg x, sq_nonneg y, sq_nonneg w]
        have hs : 1 - (2 * x * x + 2 * y * y) - (1 - (2 * y * y + 2 * z * z))
            - (1 - (2 * x * x + 2 * z * z)) + 1.0 = 4 * z * z := by
          norm_num
          ring
        have b1 : 2 * y * x + 2 * z * w - (2 * y * x - 2 * z * w) = 4 * z * w := by ring
        have b2 : 2 * z * x + 2 * y * w + (2 * z * x - 2 * y * w) = 4 * z * x := by ring
        have b3 : 2 * z * y - 2 * x * w + (2 * z * y + 2 * x * w) = 4 * z * y := by ring
        rw [b1, b2, b3]
        rcases sqrt_branch z _ hz hs with ⟨k1, k2⟩ | ⟨k1, k2⟩
        · left
          rw [k1, k2, k2, k2]
        · right
          rw [k1, k2, k2, k2]
      · rw [ofRotationMatrix_i0 _ _ (by rw [e00, e11, e22]; exact ht) h1 h2]
        rw [e00, e11] at h1
        rw [e00, e22] at h2
        simp only [e00, e01, e02, e10, e11, e12, e20, e21, e22]
        have hx : x ≠ 0 := by
          rintro rfl
          nlinarith [sq_nonneg y, sq_nonneg z, sq_nonneg w]
        have hs : 1 - (2 * y * y + 2 * z * z) - (1 - (2 * x * x + 2 * z * z))
            - (1 - (2 * x * x + 2 * y * y)) + 1.0 = 4 * x * x := by
          norm_num
          ring
        have b1 : 2 * z * y + 2 * x * w - (2 * z * y - 2 * x * w) = 4 * x * w := by ring
        have b2 : 2 * y * x + 2 * z * w + (2 * y * x - 2 * z * w) = 4 * x * y := by ring
        have b3 : 2 * z * x - 2 * y * w + (2 * z * x + 2 * y * w) = 4 * x * z := by ring
        rw [b1, b2, b3]
        rcases sqrt_branch x _ hx hs with ⟨k1, k2⟩ | ⟨k1, k2⟩
        · left
          rw [k1, k2, k2, k2]
        · right
          rw [k1, k2, k2, k2]

theorem normSq_mul {α : Type} [LinearOrderedField α] (p q : Quaterniond α) :
    (p * q).normSq = p.normSq * q.normSq := by
  show (Quaterniond.mul p q).normSq = p.normSq * q.normSq
  simp only [Quaterniond.mul, Quaterniond.normSq]
  ring

theorem toRotationMatrix_00 {α : Type} [LinearOrderedField α] (q : Quaterniond α) :
    q.toRotationMatrix 0 0 = 1 - (2 * q.y * q.y + 2 * q.z * q.z) := rfl

theorem toRotationMatrix_01 {α : Type} [LinearOrderedField α] (q : Quaterniond α) :
    q.toRotationMatrix 0 1 = 2 * q.y * q.x - 2 * q.z * q.w := rfl

theorem toRotationMatrix_02 {α : Type} [LinearOrderedField α] (q : Quaterniond α) :
    q.toRotationMatrix 0 2 = 2 * q.z * q.x + 2 * q.y * q.w := rfl

theorem toRotationMatrix_10 {α : Type} [LinearOrderedField α] (q : Quaterniond α) :
    q.toRotationMatrix 1 0 = 2 * q.y * q.x + 2 * q.z * q.w := rfl

theorem toRotationMatrix_11 {α : Type} [LinearOrderedField α] (q : Quaterniond α) :
    q.toRotationMatrix 1 1 = 1 - (2 * q.x * q.x + 2 * q.z * q.z) := rfl

theorem toRotationMatrix_12 {α : Type} [LinearOrderedField α] (q : Quaterniond α) :
    q.toRotationMatrix 1 2 = 2 * q.z * q.y - 2 * q.x * q.w := rfl

theorem toRotationMatrix_20 {α : Type} [LinearOrderedField α] (q : Quaterniond α) :
    q.toRotationMatrix 2 0 = 2 * q.z * q.x - 2 * q.y * q.w := rfl

theorem toRotationMatrix_21 {α : Type} [LinearOrderedField α] (q : Quaterniond α) :
    q.toRotationMatrix 2 1 = 2 * q.z * q.y + 2 * q.x * q.w := rfl

theorem toRotationMatrix_22 {α : Type} [LinearOrderedField α] (q : Quaterniond α) :
    q.toRotationMatrix 2 2 = 1 - (2 * q.x * q.x + 2 * q.y * q.y) := rfl

theorem toRotationMatrix_mul {α : Type} [LinearOrderedField α] (p q : Quaterniond α)
    (hp : p.normSq = 1) (hq : q.normSq = 1) :
    (p * q).toRotationMatrix = p.toRotationMatrix * q.toRotationMatrix := by
  obtain ⟨pw, px, py, pz⟩ := p
  obtain ⟨qw, qx, qy, qz⟩ := q
  simp only [Quaterniond.normSq] at hp hq
  show (Quaterniond.mul _ _).toRotationMatrix = _
  have k00 : (Quaterniond.mul ⟨pw, px, py, pz⟩ ⟨qw, qx, qy, qz⟩).toRotationMatrix 0 0
      = ((Quaterniond.mk pw px py pz).toRotationMatrix
          * (Quaterniond.mk qw qx qy qz).toRotationMatrix) 0 0 := by
    rw [Matrix.mul_apply, Fin.sum_univ_three]
    simp only [toRotationMatrix_00, toRotationMatrix_01, toRotationMatrix_02, toRotationMatrix_10, toRotationMatrix_11, toRotationMatrix_12, toRotationMatrix_20, toRotationMatrix_21, toRotationMatrix_22, Quaterniond.mul]
    linear_combination (1 - (2 * qy * qy + 2 * qz * qz) - 1) * hp + (1 - (2 * py * py + 2 * pz * pz) - 1) * hq
  have k01 : (Quaterniond.mul ⟨pw, px, py, pz⟩ ⟨qw, qx, qy, qz⟩).toRotationMatrix 0 1
      = ((Quaterniond.mk pw px py pz).toRotationMatrix
          * (Quaterniond.mk qw qx qy qz).toRotationMatrix) 0 1 := by
    rw [Matrix.mul_apply, Fin.sum_univ_three]
    simp only [toRotationMatrix_00, toRotationMatrix_01, toRotationMatrix_02, toRotationMatrix_10, toRotationMatrix_11, toRotationMatrix_12, toRotationMatrix_20, toRotationMatrix_21, toRotationMatrix_22, Quaterniond.mul]
    linear_combination (2 * qy * qx - 2 * qz * qw - 0) * hp + (2 * py * px - 2 * pz * pw - 0) * hq
  have k02 : (Quaterniond.mul ⟨pw, px, py, pz⟩ ⟨qw, qx, qy, qz⟩).toRotationMatrix 0 2
      = ((Quaterniond.mk pw px py pz).toRotationMatrix
          * (Quaterniond.mk qw qx qy qz).toRotationMatrix) 0 2 := by
    rw [Matrix.mul_apply, Fin.sum_univ_three]
    simp only [toRotationMatrix_00, toRotationMatrix_01, toRotationMatrix_02, toRotationMatrix_10, toRotationMatrix_11, toRotationMatrix_12, toRotationMatrix_20, toRotationMatrix_21, toRotationMatrix_22, Quaterniond.mul]
    linear_combination (2 * qz * qx + 2 * qy * qw - 0) * hp + (2 * pz * px + 2 * py * pw - 0) * hq
  have k10 : (Quaterniond.mul ⟨pw, px, py, pz⟩ ⟨qw, qx, qy, qz⟩).toRotationMatrix 1 0
      = ((Quaterniond.mk pw px py pz).toRotationMatrix
          * (Quaterniond.mk qw qx qy qz).toRotationMatrix) 1 0 := by
    rw [Matrix.mul_apply, Fin.sum_univ_three]
    simp only [toRotationMatrix_00, toRotationMatrix_01, toRotationMatrix_02, toRotationMatrix_10, toRotationMatrix_11, toRotationMatrix_12, toRotationMatrix_20, toRotationMatrix_21, toRotationMatrix_22, Quaterniond.mul]
    linear_combination (2 * qy * qx + 2 * qz * qw - 0) * hp + (2 * py * px + 2 * pz * pw - 0) * hq
  have k11 : (Quaterniond.mul ⟨pw, px, py, pz⟩ ⟨qw, qx, qy, qz⟩).toRotationMatrix 1 1
      = ((Quaterniond.mk pw px py pz).toRotationMatrix
          * (Quaterniond.mk qw qx qy qz).toRotationMatrix) 1 1 := by
    rw [Matrix.mul_apply, Fin.sum_univ_three]
    simp only [toRotationMatrix_00, toRotationMatrix_01, toRotationMatrix_02, toRotationMatrix_10, toRotationMatrix_11, toRotationMatrix_12, toRotationMatrix_20, toRotationMatrix_21, toRotationMatrix_22, Quaterniond.mul]
    linear_combination (1 - (2 * qx * qx + 2 * qz * qz) - 1) * hp + (1 - (2 * px * px + 2 * pz * pz) - 1) * hq
  have k12 : (Quaterniond.mul ⟨pw, px, py, pz⟩ ⟨qw, qx, qy, qz⟩).toRotationMatrix 1 2
      = ((Quaterniond.mk pw px py pz).toRotationMatrix
          * (Quaterniond.mk qw qx qy qz).toRotationMatrix) 1 2 := by
    rw [Matrix.mul_apply, Fin.sum_univ_three]
    simp only [toRotationMatrix_00, toRotationMatrix_01, toRotationMatrix_02, toRotationMatrix_10, toRotationMatrix_11, toRotationMatrix_12, toRotationMatrix_20, toRotationMatrix_21, toRotationMatrix_22, Quaterniond.mul]
    linear_combination (2 * qz * qy - 2 * qx * qw - 0) * hp + (2 * pz * py - 2 * px * pw - 0) * hq
  have k20 : (Quaterniond.mul ⟨pw, px, py, pz⟩ ⟨qw, qx, qy, qz⟩).toRotationMatrix 2 0
      = ((Quaterniond.mk pw px py pz).toRotationMatrix
          * (Quaterniond.mk qw qx qy qz).toRotationMatrix) 2 0 := by
    rw [Matrix.mul_apply, Fin.sum_univ_three]
    simp only [toRotationMatrix_00, toRotationMatrix_01, toRotationMatrix_02, toRotationMatrix_10, toRotationMatrix_11, toRotationMatrix_12, toRotationMatrix_20, toRotationMatrix_21, toRotationMatrix_22, Quaterniond.mul]
    linear_combination (2 * qz * qx - 2 * qy * qw - 0) * hp + (2 * pz * px - 2 * py * pw - 0) * hq
  have k21 : (Quaterniond.mul ⟨pw, px, py, pz⟩ ⟨qw, qx, qy, qz⟩).toRotationMatrix 2 1
      = ((Quaterniond.mk pw px py pz).toRotationMatrix
          * (Quaterniond.mk qw qx qy qz).toRotationMatrix) 2 1 := by
    rw [Matrix.mul_apply, Fin.sum_univ_three]
    simp only [toRotationMatrix_00, toRotationMatrix_01, toRotationMatrix_02, toRotationMatrix_10, toRotationMatrix_11, toRotationMatrix_12, toRotationMatrix_20, toRotationMatrix_21, toRotationMatrix_22, Quaterniond.mul]
    linear_combination (2 * qz * qy + 2 * qx * qw - 0) * hp + (2 * pz * py + 2 * px * pw - 0) * hq
  have k22 : (Quaterniond.mul ⟨pw, px, py, pz⟩ ⟨qw, qx, qy, qz⟩).toRotationMatrix 2 2
      = ((Quaterniond.mk pw px py pz).toRotationMatrix
          * (Quaterniond.mk qw qx qy qz).toRotationMatrix) 2 2 := by
    rw [Matrix.mul_apply, Fin.sum_univ_three]
    simp only [toRotationMatrix_00, toRotationMatrix_01, toRotationMatrix_02, toRotationMatrix_10, toRotationMatrix_11, toRotationMatrix_12, toRotationMatrix_20, toRotationMatrix_21, toRotationMatrix_22, Quaterniond.mul]
    linear_combination (1 - (2 * qx * qx + 2 * qy * qy) - 1) * hp + (1 - (2 * px * px + 2 * py * py) - 1) * hq
  ext i j
  fin_cases i <;> fin_cases j
  · exact k00
  · exact k01
  · exact k02
  · exact k10
  · exact k11
  · exact k12
  · exact k20
  · exact k21
  · exact k22

theorem matrix_mul {α : Type} [LinearOrderedField α] (a b : Affine3d α) :
    (a * b).matrix = a.matrix * b.matrix := by
  show (Affine3d.mul a b).matrix = _
  ext i j
  fin_cases i <;> fin_cases j <;>
    simp [Affine3d.mul, Affine3d.matrix, Matrix.mul_apply, Fin.sum_univ_four,
      Fin.sum_univ_three, Matrix.mulVec, Matrix.dotProduct]

theorem poseMsgToEigen_isRigid {α : Type} [LinearOrderedField α] (p : Pose α)
    (h : p.IsRigid) : (poseMsgToEigen p).IsRigid :=
  ⟨p.rotation, h, rfl⟩

theorem mul_isRigid {α : Type} [LinearOrderedField α] (a b : Affine3d α)
    (ha : a.IsRigid) (hb : b.IsRigid) : (a * b).IsRigid := by
  obtain ⟨p, hp, hap⟩ := ha
  obtain ⟨q, hq, hbq⟩ := hb
  refine ⟨p * q, by rw [normSq_mul, hp, hq, mul_one], ?_⟩
  rw [toRotationMatrix_mul p q hp hq, ← hap, ← hbq]
  rfl

theorem angleAxis_normSq (angle : ℝ) (axis : Fin 3 → ℝ)
    (h : axis 0 * axis 0 + axis 1 * axis 1 + axis 2 * axis 2 = 1) :
    ((AngleAxisd.mk angle axis).toQuaternion
      (Libm.mk Real.sin Real.cos Real.sqrt Real.pi toFloat32)).normSq = 1 := by
  simp only [AngleAxisd.toQuaternion, Quaterniond.normSq]
  have := Real.cos_sq_add_sin_sq (0.5 * angle)
  linear_combination this + (Real.sin (0.5 * angle)) ^ 2 * h

theorem localPose_isRigid (axis : grasp_axis_t) (radius theta1 theta2 : ℝ) :
    (localPose (Libm.mk Real.sin Real.cos Real.sqrt Real.pi toFloat32) axis radius theta1
      theta2).IsRigid := by
  have hX : ∀ a : ℝ, ((AngleAxisd.mk a UnitX).toQuaternion
      (Libm.mk Real.sin Real.cos Real.sqrt Real.pi toFloat32)).normSq = 1 :=
    fun a => angleAxis_normSq a UnitX (by simp [UnitX])
  have hY : ∀ a : ℝ, ((AngleAxisd.mk a UnitY).toQuaternion
      (Libm.mk Real.sin Real.cos Real.sqrt Real.pi toFloat32)).normSq = 1 :=
    fun a => angleAxis_normSq a UnitY (by simp [UnitY])
  have hZ : ∀ a : ℝ, ((AngleAxisd.mk a UnitZ).toQuaternion
      (Libm.mk Real.sin Real.cos Real.sqrt Real.pi toFloat32)).normSq = 1 :=
    fun a => angleAxis_normSq a UnitZ (by simp [UnitZ])
  cases axis with
  | X_AXIS =>
    exact ⟨_, by rw [normSq_mul, normSq_mul, hX, hZ, hX]; norm_num, rfl⟩
  | Y_AXIS =>
    exact ⟨_, by rw [normSq_mul, hY, hX]; norm_num, rfl⟩
  | Z_AXIS =>
    exact ⟨⟨1, 0, 0, 0⟩, by simp [Quaterniond.normSq], rfl⟩

theorem poseMsgToEigen_poseEigenToMsg (e : Affine3d ℝ) (h : e.IsRigid) :
    poseMsgToEigen (poseEigenToMsg (Libm.mk Real.sin Real.cos Real.sqrt Real.pi toFloat32) e) = e := by
  obtain ⟨q, hq, hl⟩ := h
  obtain ⟨l, t⟩ := e
  simp only at hl
  subst hl
  have ht : ![t 0, t 1, t 2] = t := by
    funext i
    fin_cases i <;> rfl
  have hcases := ofRotationMatrix_toRotationMatrix q hq
  simp only [poseMsgToEigen, poseEigenToMsg, ht, Affine3d.mk.injEq, and_true]
  rcases hcases with h1 | h1
  · rw [h1]
    split_ifs
    · have hn : Quaterniond.mk (q.w * -1) (q.x * -1) (q.y * -1) (q.z * -1) = q.neg := by
        simp [Quaterniond.neg]
      rw [hn]
      exact toRotationMatrix_neg q
    · rfl
  · rw [h1]
    split_ifs
    · have hn : Quaterniond.mk (q.neg.w * -1) (q.neg.x * -1) (q.neg.y * -1) (q.neg.z * -1)
          = q := by
        simp [Quaterniond.neg]
      rw [hn]
    · exact toRotationMatrix_neg q

theorem newGrasp_pose (bgt : Affine3d ℝ) (gd : RobotGraspData ℝ) (grasp_pose : Affine3d ℝ)
    (theta1 : ℝ) (k : Int) (hb : bgt.IsRigid) (hl : grasp_pose.IsRigid)
    (he : gd.grasp_pose_to_eef_pose_.IsRigid) :
    poseMsgToEigen (newGrasp (Libm.mk Real.sin Real.cos Real.sqrt Real.pi toFloat32) bgt gd grasp_pose
        theta1 k).grasp_pose.pose
      = bgt * (grasp_pose * poseMsgToEigen gd.grasp_pose_to_eef_pose_) := by
  simp only [newGrasp]
  exact poseMsgToEigen_poseEigenToMsg _
    (mul_isRigid _ _ hb (mul_isRigid _ _ hl (poseMsgToEigen_isRigid _ he)))

theorem toRotationMatrix_one {α : Type} [LinearOrderedField α] :
    (Quaterniond.mk (1 : α) 0 0 0).toRotationMatrix = 1 := by
  ext i j
  fin_cases i <;> fin_cases j <;>
    simp [Quaterniond.toRotationMatrix, Matrix.vecHead, Matrix.vecTail]

theorem conj_mul_self {α : Type} [LinearOrderedField α] (q : Quaterniond α)
    (hq : q.normSq = 1) : q.conj * q = ⟨1, 0, 0, 0⟩ := by
  show Quaterniond.mul q.conj q = _
  simp only [Quaterniond.normSq] at hq
  simp only [Quaterniond.mul, Quaterniond.conj, Quaterniond.mk.injEq]
  refine ⟨by linear_combination hq, by ring, by ring, by ring⟩

theorem normSq_conj {α : Type} [LinearOrderedField α] (q : Quaterniond α) :
    q.conj.normSq = q.normSq := by
  simp only [Quaterniond.normSq, Quaterniond.conj]
  ring

theorem matrix_identity {α : Type} [LinearOrderedField α] :
    (Affine3d.mk (1 : Matrix (Fin 3) (Fin 3) α) 0).matrix = 1 := by
  ext i j
  fin_cases i <;> fin_cases j <;>
    simp [Affine3d.matrix, Matrix.vecHead, Matrix.vecTail]

theorem rigid_inv_mul (e : Affine3d ℝ) (h : e.IsRigid) :
    e.matrix⁻¹ * e.matrix = 1 ∧ e.matrix * e.matrix⁻¹ = 1 := by
  obtain ⟨q, hq, hl⟩ := h
  have hm : Affine3d.rigidInverse q e * e = ⟨1, 0⟩ := by
    show Affine3d.mul _ _ = _
    simp only [Affine3d.mul, Affine3d.rigidInverse, hl, Affine3d.mk.injEq]
    rw [← toRotationMatrix_mul _ _ (by rw [normSq_conj, hq]) hq, conj_mul_self q hq,
      toRotationMatrix_one]
    simp
  have hleft : (Affine3d.rigidInverse q e).matrix * e.matrix = 1 := by
    rw [← matrix_mul, hm, matrix_identity]
  have hinv : e.matrix⁻¹ = (Affine3d.rigidInverse q e).matrix := Matrix.inv_eq_left_inv hleft
  rw [hinv]
  exact ⟨hleft, (Matrix.mul_eq_one_comm).mp hleft⟩

theorem examplePose_isRigid : (examplePose : Pose ℝ).IsRigid := by
  simp only [Pose.IsRigid, Pose.rotation, Quaterniond.normSq, examplePose]
  norm_num

theorem identityPose_isRigid : (identityPose : Pose ℝ).IsRigid := by
  simp [Pose.IsRigid, Pose.rotation, Quaterniond.normSq, identityPose]

/-! ## The local grasp pose, written out -/

theorem cos_half (a : ℝ) : Real.cos a = 1 - 2 * (Real.sin (0.5 * a) * Real.sin (0.5 * a)) := by
  have h : a = 2 * (0.5 * a) := by norm_num; ring
  have h2 := Real.cos_sq_add_sin_sq (0.5 * a)
  conv_lhs => rw [h]
  rw [Real.cos_two_mul]
  linear_combination 2 * h2

theorem sin_half (a : ℝ) : Real.sin a = 2 * (Real.sin (0.5 * a) * Real.cos (0.5 * a)) := by
  have h : a = 2 * (0.5 * a) := by norm_num; ring
  conv_lhs => rw [h]
  rw [Real.sin_two_mul]
  ring

theorem toRotationMatrix_UnitX (a : ℝ) :
    ((AngleAxisd.mk a UnitX).toQuaternion
      (Libm.mk Real.sin Real.cos Real.sqrt Real.pi toFloat32)).toRotationMatrix
      = rotX (Libm.mk Real.sin Real.cos Real.sqrt Real.pi toFloat32) a := by
  have hc := cos_half a
  have hs := sin_half a
  ext i j
  fin_cases i <;> fin_cases j <;>
    simp [AngleAxisd.toQuaternion, Quaterniond.toRotationMatrix, rotX, UnitX] <;>
    first
      | linear_combination hc
      | linear_combination -hc
      | linear_combination hs
      | linear_combination -hs

theorem toRotationMatrix_UnitY (a : ℝ) :
    ((AngleAxisd.mk a UnitY).toQuaternion
      (Libm.mk Real.sin Real.cos Real.sqrt Real.pi toFloat32)).toRotationMatrix
      = rotY (Libm.mk Real.sin Real.cos Real.sqrt Real.pi toFloat32) a := by
  have hc := cos_half a
  have hs := sin_half a
  ext i j
  fin_cases i <;> fin_cases j <;>
    simp [AngleAxisd.toQuaternion, Quaterniond.toRotationMatrix, rotY, UnitY] <;>
    first
      | linear_combination hc
      | linear_combination -hc
      | linear_combination hs
      | linear_combination -hs

theorem toRotationMatrix_UnitZ (a : ℝ) :
    ((AngleAxisd.mk a UnitZ).toQuaternion
      (Libm.mk Real.sin Real.cos Real.sqrt Real.pi toFloat32)).toRotationMatrix
      = rotZ (Libm.mk Real.sin Real.cos Real.sqrt Real.pi toFloat32) a := by
  have hc := cos_half a
  have hs := sin_half a
  ext i j
  fin_cases i <;> fin_cases j <;>
    simp [AngleAxisd.toQuaternion, Quaterniond.toRotationMatrix, rotZ, UnitZ] <;>
    first
      | linear_combination hc
      | linear_combination -hc
      | linear_combination hs
      | linear_combination -hs

theorem angleAxis_normSq_X (a : ℝ) : ((AngleAxisd.mk a UnitX).toQuaternion
    (Libm.mk Real.sin Real.cos Real.sqrt Real.pi toFloat32)).normSq = 1 :=
  angleAxis_normSq a UnitX (by simp [UnitX])

theorem angleAxis_normSq_Y (a : ℝ) : ((AngleAxisd.mk a UnitY).toQuaternion
    (Libm.mk Real.sin Real.cos Real.sqrt Real.pi toFloat32)).normSq = 1 :=
  angleAxis_normSq a UnitY (by simp [UnitY])

theorem angleAxis_normSq_Z (a : ℝ) : ((AngleAxisd.mk a UnitZ).toQuaternion
    (Libm.mk Real.sin Real.cos Real.sqrt Real.pi toFloat32)).normSq = 1 :=
  angleAxis_normSq a UnitZ (by simp [UnitZ])

/-- The local grasp pose over `Y_AXIS`, written out. -/
theorem localGraspPose_Y_AXIS (radius theta1 theta2 : ℝ) :
    localGraspPose (Libm.mk Real.sin Real.cos Real.sqrt Real.pi toFloat32) Y_AXIS radius theta1 theta2
      = some { linear := rotY (Libm.mk Real.sin Real.cos Real.sqrt Real.pi toFloat32) (Real.pi - theta1)
                 * rotX (Libm.mk Real.sin Real.cos Real.sqrt Real.pi toFloat32) theta2
               translation := ![radius * Real.cos theta1, 0, radius * Real.sin theta1] } := by
  have z : (0.0 : ℝ) = 0 := by norm_num
  simp only [localGraspPose, Affine3d.ofQuaternion, z]
  rw [toRotationMatrix_mul _ _ (angleAxis_normSq_Y _) (angleAxis_normSq_X _),
    toRotationMatrix_UnitY, toRotationMatrix_UnitX]

/-- The local grasp pose over `X_AXIS`, written out. -/
theorem localGraspPose_X_AXIS (radius theta1 theta2 : ℝ) :
    localGraspPose (Libm.mk Real.sin Real.cos Real.sqrt Real.pi toFloat32) X_AXIS radius theta1 theta2
      = some { linear := rotX (Libm.mk Real.sin Real.cos Real.sqrt Real.pi toFloat32) theta1
                 * rotZ (Libm.mk Real.sin Real.cos Real.sqrt Real.pi toFloat32) (-0.5 * Real.pi)
                 * rotX (Libm.mk Real.sin Real.cos Real.sqrt Real.pi toFloat32) theta2
               translation := ![0, radius * Real.cos theta1, radius * Real.sin theta1] } := by
  have z : (0.0 : ℝ) = 0 := by norm_num
  simp only [localGraspPose, Affine3d.ofQuaternion, z]
  rw [toRotationMatrix_mul _ _
      (by rw [normSq_mul, angleAxis_normSq_X, angleAxis_normSq_Z, mul_one])
      (angleAxis_normSq_X _),
    toRotationMatrix_mul _ _ (angleAxis_normSq_X _) (angleAxis_normSq_Z _),
    toRotationMatrix_UnitX, toRotationMatrix_UnitZ, toRotationMatrix_UnitX]

theorem rotX_pi : rotX (Libm.mk Real.sin Real.cos Real.sqrt Real.pi toFloat32) Real.pi
    = !![1, 0, 0; 0, -1, 0; 0, 0, -1] := by
  simp [rotX]

theorem rotX_zero : rotX (Libm.mk Real.sin Real.cos Real.sqrt Real.pi toFloat32) 0 = 1 := by
  ext i j
  fin_cases i <;> fin_cases j <;> simp [rotX, Matrix.vecHead, Matrix.vecTail]

theorem rotZ_neg_half_pi : rotZ (Libm.mk Real.sin Real.cos Real.sqrt Real.pi toFloat32) (-0.5 * Real.pi)
    = !![0, 1, 0; -1, 0, 0; 0, 0, 1] := by
  have h : (-0.5 * Real.pi) = -(Real.pi / 2) := by norm_num; ring
  simp [rotZ, h]

/-! ## Angles and the sine along a pass -/

theorem theta1_at_real (gd : RobotGraspData ℝ) (i : Nat) :
    theta1_at (Libm.mk Real.sin Real.cos Real.sqrt Real.pi toFloat32) gd i
      = (i : ℝ) * (Real.pi / (gd.angle_resolution_ : ℝ)) :=
  theta1_at_eq _ gd i

theorem theta1_at_mono (gd : RobotGraspData ℝ) (hR : 1 ≤ gd.angle_resolution_) (i j : Nat)
    (hij : i ≤ j) :
    theta1_at (Libm.mk Real.sin Real.cos Real.sqrt Real.pi toFloat32) gd i
      ≤ theta1_at (Libm.mk Real.sin Real.cos Real.sqrt Real.pi toFloat32) gd j := by
  have hpos : (0 : ℝ) < (gd.angle_resolution_ : ℝ) := by
    have : (0 : Int) < gd.angle_resolution_ := by omega
    exact_mod_cast this
  have hij' : (i : ℝ) ≤ (j : ℝ) := by exact_mod_cast hij
  rw [theta1_at_real, theta1_at_real]
  exact mul_le_mul_of_nonneg_right hij' (div_nonneg Real.pi_pos.le hpos.le)

theorem theta1_at_bounds (gd : RobotGraspData ℝ) (hR : 1 ≤ gd.angle_resolution_) (i : Nat)
    (hi : (i : Int) ≤ gd.angle_resolution_) :
    0 ≤ theta1_at (Libm.mk Real.sin Real.cos Real.sqrt Real.pi toFloat32) gd i
    ∧ theta1_at (Libm.mk Real.sin Real.cos Real.sqrt Real.pi toFloat32) gd i ≤ Real.pi := by
  have hpos : (0 : ℝ) < (gd.angle_resolution_ : ℝ) := by
    have : (0 : Int) < gd.angle_resolution_ := by omega
    exact_mod_cast this
  have hi' : (i : ℝ) ≤ (gd.angle_resolution_ : ℝ) := by exact_mod_cast hi
  rw [theta1_at_real]
  constructor
  · positivity
  · calc (i : ℝ) * (Real.pi / (gd.angle_resolution_ : ℝ))
        ≤ (gd.angle_resolution_ : ℝ) * (Real.pi / (gd.angle_resolution_ : ℝ)) :=
          mul_le_mul_of_nonneg_right hi' (div_nonneg Real.pi_pos.le hpos.le)
      _ = Real.pi := by field_simp

theorem sin_le_sin_left (a b : ℝ) (ha : 0 ≤ a) (hab : a ≤ b) (hb : b ≤ Real.pi / 2) :
    Real.sin a ≤ Real.sin b :=
  Real.sin_le_sin_of_le_of_le_pi_div_two (by linarith [Real.pi_pos]) hb hab

theorem sin_le_sin_right (a b : ℝ) (ha : Real.pi / 2 ≤ a) (hab : a ≤ b) (hb : b ≤ Real.pi) :
    Real.sin b ≤ Real.sin a := by
  rw [← Real.sin_pi_sub a, ← Real.sin_pi_sub b]
  exact Real.sin_le_sin_of_le_of_le_pi_div_two (by linarith [Real.pi_pos]) (by linarith)
    (by linarith)

theorem sin_eq_one_iff_half_pi (a : ℝ) (h0 : 0 ≤ a) (hpi : a ≤ Real.pi) :
    Real.sin a = 1 ↔ a = Real.pi / 2 := by
  constructor
  · intro h
    have hc : Real.cos a = 0 := by
      have := Real.sin_sq_add_cos_sq a
      rw [h] at this
      nlinarith
    apply Real.injOn_cos ⟨h0, hpi⟩ ⟨by positivity, by linarith [Real.pi_pos]⟩
    rw [hc, Real.cos_pi_div_two]
  · intro h
    rw [h, Real.sin_pi_div_two]

theorem max_floor_eq_one_iff (x : ℝ) : max x 0.1 = 1.0 ↔ x = 1 := by
  constructor
  · intro h
    rcases max_choice x 0.1 with hx | hx
    · rw [hx] at h
      rw [h]
      norm_num
    · rw [hx] at h
      norm_num at h
  · intro h
    rw [h]
    norm_num

/-! ## Positions -/

/-- The position stored in a grasp is the translation of
`block_global_transform_ * (grasp_pose * eef_conversion_pose)`. -/
theorem newGrasp_position {α : Type} [LinearOrderedField α] (m : Libm α) (bgt : Affine3d α)
    (gd : RobotGraspData α) (grasp_pose : Affine3d α) (theta1 : α) (k : Int) :
    (newGrasp m bgt gd grasp_pose theta1 k).grasp_pose.pose.position
      = { x := (bgt * (grasp_pose * poseMsgToEigen gd.grasp_pose_to_eef_pose_)).translation 0
          y := (bgt * (grasp_pose * poseMsgToEigen gd.grasp_pose_to_eef_pose_)).translation 1
          z := (bgt * (grasp_pose * poseMsgToEigen gd.grasp_pose_to_eef_pose_)).translation 2 } :=
  rfl

theorem mul_translation {α : Type} [LinearOrderedField α] (a b : Affine3d α) :
    (a * b).translation = a.linear.mulVec b.translation + a.translation :=
  rfl

theorem vec3_eta {α : Type} (v : Fin 3 → α) : ![v 0, v 1, v 2] = v := by
  funext i
  fin_cases i <;> rfl

theorem poseMsgToEigen_translatedPose {α : Type} [LinearOrderedField α] :
    poseMsgToEigen (translatedPose : Pose α) = { linear := 1, translation := ![1, 2, 3] } := by
  simp only [poseMsgToEigen, translatedPose, toRotationMatrix_one]

theorem localPose_Y_AXIS (radius theta1 theta2 : ℝ) :
    localPose (Libm.mk Real.sin Real.cos Real.sqrt Real.pi toFloat32) Y_AXIS radius theta1 theta2
      = { linear := rotY (Libm.mk Real.sin Real.cos Real.sqrt Real.pi toFloat32) (Real.pi - theta1)
            * rotX (Libm.mk Real.sin Real.cos Real.sqrt Real.pi toFloat32) theta2
          translation := ![radius * Real.cos theta1, 0, radius * Real.sin theta1] } := by
  rw [localPose, localGraspPose_Y_AXIS]
  rfl

/-! ## Ids over several calls -/

/-- The ids of the grasps of one call are numbered from the counter on, and the counter
advances by their number. -/
theorem call_ids {α : Type} [LinearOrderedField α] (m : Libm α) (s : Generator α)
    (c : Call α) :
    ((s.call m c).2.map Grasp.id
        = (List.range (s.call m c).2.length).map
            (fun i : Nat => "Grasp" ++ lexical_cast (s.grasp_id + (i : Int))))
    ∧ (s.call m c).1.grasp_id = s.grasp_id + ((s.call m c).2.length : Int) := by
  cases c with
  | generateGrasps block_pose gd pg =>
    simp only [Generator.call]
    rw [newGrasps_generateGrasps, generateGrasps_eq]
    simp [passGrasp_id]
  | generateAxisGrasps pg axis direction gd =>
    simp only [Generator.call]
    by_cases hax : axis = Z_AXIS
    · subst hax
      rw [newGrasps_Z_AXIS]
      simp [generateAxisGrasps, loop_Z_AXIS]
    · rw [newGrasps_generateAxisGrasps _ _ _ _ _ _ hax, generateAxisGrasps_eq _ _ _ _ _ _ hax]
      simp [passGrasp_id]

/-- The ids of all the grasps of a run are numbered from the counter at the start on. -/
theorem run_ids {α : Type} [LinearOrderedField α] (m : Libm α) (calls : List (Call α)) :
    ∀ s : Generator α,
      ((Generator.run m s calls).2.map Grasp.id
          = (List.range (Generator.run m s calls).2.length).map
              (fun i : Nat => "Grasp" ++ lexical_cast (s.grasp_id + (i : Int))))
      ∧ (Generator.run m s calls).1.grasp_id
          = s.grasp_id + ((Generator.run m s calls).2.length : Int) := by
  induction calls with
  | nil =>
    intro s
    simp [Generator.run]
  | cons c cs ih =>
    intro s
    obtain ⟨h1, h2⟩ := call_ids m s c
    obtain ⟨h3, h4⟩ := ih (s.call m c).1
    simp only [Generator.run]
    constructor
    · rw [List.map_append, h1, h3, List.length_append, List.range_add, List.map_append,
        List.map_map, h2]
      congr 1
      apply List.map_congr_left
      intro i _
      simp only [Function.comp_apply]
      push_cast
      rw [add_assoc]
    · rw [h4, h2, List.length_append]
      push_cast
      ring

/-! ## Appending only -/

/-- The vector after a `generateAxisGrasps` call is the prior content followed by the
grasps the call appended. -/
theorem generateAxisGrasps_append {α : Type} [LinearOrderedField α] (m : Libm α)
    (bgt : Affine3d α) (st : GenState α) (axis : grasp_axis_t)
    (direction : grasp_direction_t) (gd : RobotGraspData α) :
    (generateAxisGrasps m bgt st axis direction gd).2.possible_grasps
      = st.possible_grasps ++ newGrasps st (generateAxisGrasps m bgt st axis direction gd) := by
  by_cases hax : axis = Z_AXIS
  · subst hax
    rw [newGrasps_Z_AXIS]
    simp [generateAxisGrasps, loop_Z_AXIS]
  · rw [newGrasps_generateAxisGrasps m bgt st axis direction gd hax,
      generateAxisGrasps_eq m bgt st axis direction gd hax]

/-- The vector after a `generateGrasps` call is the prior content followed by the grasps
the call appended. -/
theorem generateGrasps_append {α : Type} [LinearOrderedField α] (m : Libm α)
    (block_pose : Pose α) (gd : RobotGraspData α) (st : GenState α) :
    (generateGrasps m block_pose gd st).2.possible_grasps
      = st.possible_grasps ++ newGrasps st (generateGrasps m block_pose gd st) := by
  rw [newGrasps_generateGrasps, generateGrasps_eq]

/-! ## IEEE 754 rounding -/

theorem roundNearestEven_of_lt {α : Type} [LinearOrderedField α] [FloorRing α] (y : α)
    (n : Int) (h1 : (n : α) ≤ y) (h2 : y < (n : α) + 1 / 2) : roundNearestEven y = n := by
  have hf : ⌊y⌋ = n := Int.floor_eq_iff.mpr ⟨h1, by linarith⟩
  unfold roundNearestEven
  simp only [hf]
  rw [if_pos (by linarith)]

theorem roundNearestEven_of_gt {α : Type} [LinearOrderedField α] [FloorRing α] (y : α)
    (n : Int) (h1 : (n : α) + 1 / 2 < y) (h2 : y < (n : α) + 1) :
    roundNearestEven y = n + 1 := by
  have hf : ⌊y⌋ = n := Int.floor_eq_iff.mpr ⟨by linarith, h2⟩
  unfold roundNearestEven
  simp only [hf]
  rw [if_neg (by linarith), if_pos (by linarith)]

theorem roundNearestEven_tie_even {α : Type} [LinearOrderedField α] [FloorRing α] (y : α)
    (n : Int) (h : y = (n : α) + 1 / 2) (hn : n % 2 = 0) : roundNearestEven y = n := by
  have hf : ⌊y⌋ = n := Int.floor_eq_iff.mpr ⟨by linarith, by linarith⟩
  unfold roundNearestEven
  simp only [hf]
  rw [if_neg (by linarith), if_neg (by linarith), if_pos hn]

theorem roundNearestEven_tie_odd {α : Type} [LinearOrderedField α] [FloorRing α] (y : α)
    (n : Int) (h : y = (n : α) + 1 / 2) (hn : ¬ n % 2 = 0) : roundNearestEven y = n + 1 := by
  have hf : ⌊y⌋ = n := Int.floor_eq_iff.mpr ⟨by linarith, by linarith⟩
  unfold roundNearestEven
  simp only [hf]
  rw [if_neg (by linarith), if_neg (by linarith), if_neg hn]

/-- The rounding of a positive number whose binade is known. -/
theorem ieeeRound_of_pos {α : Type} [LinearOrderedField α] [FloorRing α] (p : Nat)
    (emin e : Int) (x : α) (hx : 0 < x) (h1 : (2 : α) ^ e ≤ x) (h2 : x < (2 : α) ^ (e + 1))
    (he : emin ≤ e) :
    ieeeRound p emin x
      = (roundNearestEven (x / (2 : α) ^ (e - ((p : Int) - 1))) : α)
          * (2 : α) ^ (e - ((p : Int) - 1)) := by
  have hlog : Int.log 2 x = e := by
    have a : e ≤ Int.log 2 x :=
      (Int.zpow_le_iff_le_log (by norm_num) hx).mp (by exact_mod_cast h1)
    have b : Int.log 2 x < e + 1 :=
      (Int.lt_zpow_iff_log_lt (by norm_num) hx).mp (by exact_mod_cast h2)
    omega
  unfold ieeeRound
  rw [if_neg hx.ne', abs_of_pos hx, hlog, max_eq_left he]

/-- The `float` nearest to `0.05`. -/
theorem toFloat32_desired_dist : toFloat32 (0.05 : ℝ) = 13421773 / 268435456 := by
  unfold toFloat32
  rw [ieeeRound_of_pos 24 (-126) (-5) (0.05 : ℝ) (by norm_num) (by norm_num) (by norm_num)
    (by norm_num)]
  rw [roundNearestEven_of_gt _ 13421772 (by norm_num) (by norm_num)]
  norm_num

/-! ## The angles in `double` arithmetic at resolution 16 -/

/-- Without rounding, `theta1_rounded` is `theta1_at`. -/
theorem theta1_rounded_id {α : Type} [LinearOrderedField α] (m : Libm α)
    (gd : RobotGraspData α) (i : Nat) :
    theta1_rounded id m.M_PI gd.angle_resolution_ i = theta1_at m gd i := by
  induction i with
  | zero => rfl
  | succ i ih => rw [theta1_rounded, theta1_at, ih, id, id]

/-- The step `M_PI / 16` is exact in `double`. -/
theorem toDouble_step_16 :
    toDouble ((M_PI_double : ℝ) / ((16 : Int) : ℝ)) = 884279719003555 / 4503599627370496 := by
  have h : (M_PI_double : ℝ) / ((16 : Int) : ℝ) = 884279719003555 / 4503599627370496 := by
    norm_num [M_PI_double]
  rw [h]
  unfold toDouble
  rw [ieeeRound_of_pos 53 (-1022) (-3) _ (by norm_num) (by norm_num) (by norm_num)
    (by norm_num)]
  rw [roundNearestEven_of_lt _ 7074237752028440 (by norm_num) (by norm_num)]
  norm_num

theorem toDouble_sum_16_1 :
    toDouble ((0 : ℝ) + 884279719003555 / 4503599627370496) = 884279719003555 / 4503599627370496 := by
  have h : ((0 : ℝ) + 884279719003555 / 4503599627370496) = 884279719003555 / 4503599627370496 := by norm_num
  rw [h]
  unfold toDouble
  rw [ieeeRound_of_pos 53 (-1022) (-3) _ (by norm_num) (by norm_num) (by norm_num)
    (by norm_num)]
  rw [roundNearestEven_of_lt _ 7074237752028440 (by norm_num) (by norm_num)]
  norm_num

theorem toDouble_sum_16_2 :
    toDouble ((884279719003555 / 4503599627370496 : ℝ) + 884279719003555 / 4503599627370496) = 884279719003555 / 2251799813685248 := by
  have h : ((884279719003555 / 4503599627370496 : ℝ) + 884279719003555 / 4503599627370496) = 884279719003555 / 2251799813685248 := by norm_num
  rw [h]
  unfold toDouble
  rw [ieeeRound_of_pos 53 (-1022) (-2) _ (by norm_num) (by norm_num) (by norm_num)
    (by norm_num)]
  rw [roundNearestEven_of_lt _ 7074237752028440 (by norm_num) (by norm_num)]
  norm_num

theorem toDouble_sum_16_3 :
    toDouble ((884279719003555 / 2251799813685248 : ℝ) + 884279719003555 / 4503599627370496) = 2652839157010665 / 4503599627370496 := by
  have h : ((884279719003555 / 2251799813685248 : ℝ) + 884279719003555 / 4503599627370496) = 2652839157010665 / 4503599627370496 := by norm_num
  rw [h]
  unfold toDouble
  rw [ieeeRound_of_pos 53 (-1022) (-1) _ (by norm_num) (by norm_num) (by norm_num)
    (by norm_num)]
  rw [roundNearestEven_of_lt _ 5305678314021330 (by norm_num) (by norm_num)]
  norm_num

theorem toDouble_sum_16_4 :
    toDouble ((2652839157010665 / 4503599627370496 : ℝ) + 884279719003555 / 4503599627370496) = 884279719003555 / 1125899906842624 := by
  have h : ((2652839157010665 / 4503599627370496 : ℝ) + 884279719003555 / 4503599627370496) = 884279719003555 / 1125899906842624 := by norm_num
  rw [h]
  unfold toDouble
  rw [ieeeRound_of_pos 53 (-1022) (-1) _ (by norm_num) (by norm_num) (by norm_num)
    (by norm_num)]
  rw [roundNearestEven_of_lt _ 7074237752028440 (by norm_num) (by norm_num)]
  norm_num

theorem toDouble_sum_16_5 :
    toDouble ((884279719003555 / 1125899906842624 : ℝ) + 884279719003555 / 4503599627370496) = 4421398595017775 / 4503599627370496 := by
  have h : ((884279719003555 / 1125899906842624 : ℝ) + 884279719003555 / 4503599627370496) = 4421398595017775 / 4503599627370496 := by norm_num
  rw [h]
  unfold toDouble
  rw [ieeeRound_of_pos 53 (-1022) (-1) _ (by norm_num) (by norm_num) (by norm_num)
    (by norm_num)]
  rw [roundNearestEven_of_lt _ 8842797190035550 (by norm_num) (by norm_num)]
  norm_num

theorem toDouble_sum_16_6 :
    toDouble ((4421398595017775 / 4503599627370496 : ℝ) + 884279719003555 / 4503599627370496) = 2652839157010665 / 2251799813685248 := by
  have h : ((4421398595017775 / 4503599627370496 : ℝ) + 884279719003555 / 4503599627370496) = 2652839157010665 / 2251799813685248 := by norm_num
  rw [h]
  unfold toDouble
  rw [ieeeRound_of_pos 53 (-1022) (0) _ (by norm_num) (by norm_num) (by norm_num)
    (by norm_num)]
  rw [roundNearestEven_of_lt _ 5305678314021330 (by norm_num) (by norm_num)]
  norm_num

theorem toDouble_sum_16_7 :
    toDouble ((2652839157010665 / 2251799813685248 : ℝ) + 884279719003555 / 4503599627370496) = 6189958033024885 / 4503599627370496 := by
  have h : ((2652839157010665 / 2251799813685248 : ℝ) + 884279719003555 / 4503599627370496) = 6189958033024885 / 4503599627370496 := by norm_num
  rw [h]
  unfold toDouble
  rw [ieeeRound_of_pos 53 (-1022) (0) _ (by norm_num) (by norm_num) (by norm_num)
    (by norm_num)]
  rw [roundNearestEven_of_lt _ 6189958033024885 (by norm_num) (by norm_num)]
  norm_num

theorem toDouble_sum_16_8 :
    toDouble ((6189958033024885 / 4503599627370496 : ℝ) + 884279719003555 / 4503599627370496) = 884279719003555 / 562949953421312 := by
  have h : ((6189958033024885 / 4503599627370496 : ℝ) + 884279719003555 / 4503599627370496) = 884279719003555 / 562949953421312 := by norm_num
  rw [h]
  unfold toDouble
  rw [ieeeRound_of_pos 53 (-1022) (0) _ (by norm_num) (by norm_num) (by norm_num)
    (by norm_num)]
  rw [roundNearestEven_of_lt _ 7074237752028440 (by norm_num) (by norm_num)]
  norm_num

theorem toDouble_sum_16_9 :
    toDouble ((884279719003555 / 562949953421312 : ℝ) + 884279719003555 / 4503599627370496) = 7958517471031995 / 4503599627370496 := by
  have h : ((884279719003555 / 562949953421312 : ℝ) + 884279719003555 / 4503599627370496) = 7958517471031995 / 4503599627370496 := by norm_num
  rw [h]
  unfold toDouble
  rw [ieeeRound_of_pos 53 (-1022) (0) _ (by norm_num) (by norm_num) (by norm_num)
    (by norm_num)]
  rw [roundNearestEven_of_lt _ 7958517471031995 (by norm_num) (by norm_num)]
  norm_num

theorem toDouble_sum_16_10 :
    toDouble ((7958517471031995 / 4503599627370496 : ℝ) + 884279719003555 / 4503599627370496) = 4421398595017775 / 2251799813685248 := by
  have h : ((7958517471031995 / 4503599627370496 : ℝ) + 884279719003555 / 4503599627370496) = 4421398595017775 / 2251799813685248 := by norm_num
  rw [h]
  unfold toDouble
  rw [ieeeRound_of_pos 53 (-1022) (0) _ (by norm_num) (by norm_num) (by norm_num)
    (by norm_num)]
  rw [roundNearestEven_of_lt _ 8842797190035550 (by norm_num) (by norm_num)]
  norm_num

theorem toDouble_sum_16_11 :
    toDouble ((4421398595017775 / 2251799813685248 : ℝ) + 884279719003555 / 4503599627370496) = 18998197087967 / 8796093022208 := by
  have h : ((4421398595017775 / 2251799813685248 : ℝ) + 884279719003555 / 4503599627370496) = 9727076909039105 / 4503599627370496 := by norm_num
  rw [h]
  unfold toDouble
  rw [ieeeRound_of_pos 53 (-1022) (1) _ (by norm_num) (by norm_num) (by norm_num)
    (by norm_num)]
  rw [roundNearestEven_tie_even _ 4863538454519552 (by norm_num) (by decide)]
  norm_num

theorem toDouble_sum_16_12 :
    toDouble ((18998197087967 / 8796093022208 : ℝ) + 884279719003555 / 4503599627370496) = 2652839157010665 / 1125899906842624 := by
  have h : ((18998197087967 / 8796093022208 : ℝ) + 884279719003555 / 4503599627370496) = 10611356628042659 / 4503599627370496 := by norm_num
  rw [h]
  unfold toDouble
  rw [ieeeRound_of_pos 53 (-1022) (1) _ (by norm_num) (by norm_num) (by norm_num)
    (by norm_num)]
  rw [roundNearestEven_tie_odd _ 5305678314021329 (by norm_num) (by decide)]
  norm_num

theorem toDouble_sum_16_13 :
    toDouble ((2652839157010665 / 1125899906842624 : ℝ) + 884279719003555 / 4503599627370496) = 1436954543380777 / 562949953421312 := by
  have h : ((2652839157010665 / 1125899906842624 : ℝ) + 884279719003555 / 4503599627370496) = 11495636347046215 / 4503599627370496 := by norm_num
  rw [h]
  unfold toDouble
  rw [ieeeRound_of_pos 53 (-1022) (1) _ (by norm_num) (by norm_num) (by norm_num)
    (by norm_num)]
  rw [roundNearestEven_tie_odd _ 5747818173523107 (by norm_num) (by decide)]
  norm_num

theorem toDouble_sum_16_14 :
    toDouble ((1436954543380777 / 562949953421312 : ℝ) + 884279719003555 / 4503599627370496) = 3094979016512443 / 1125899906842624 := by
  have h : ((1436954543380777 / 562949953421312 : ℝ) + 884279719003555 / 4503599627370496) = 12379916066049771 / 4503599627370496 := by norm_num
  rw [h]
  unfold toDouble
  rw [ieeeRound_of_pos 53 (-1022) (1) _ (by norm_num) (by norm_num) (by norm_num)
    (by norm_num)]
  rw [roundNearestEven_tie_odd _ 6189958033024885 (by norm_num) (by decide)]
  norm_num

theorem toDouble_sum_16_15 :
    toDouble ((3094979016512443 / 1125899906842624 : ℝ) + 884279719003555 / 4503599627370496) = 829012236565833 / 281474976710656 := by
  have h : ((3094979016512443 / 1125899906842624 : ℝ) + 884279719003555 / 4503599627370496) = 13264195785053327 / 4503599627370496 := by norm_num
  rw [h]
  unfold toDouble
  rw [ieeeRound_of_pos 53 (-1022) (1) _ (by norm_num) (by norm_num) (by norm_num)
    (by norm_num)]
  rw [roundNearestEven_tie_odd _ 6632097892526663 (by norm_num) (by decide)]
  norm_num

theorem toDouble_sum_16_16 :
    toDouble ((829012236565833 / 281474976710656 : ℝ) + 884279719003555 / 4503599627370496) = 3537118876014221 / 1125899906842624 := by
  have h : ((829012236565833 / 281474976710656 : ℝ) + 884279719003555 / 4503599627370496) = 14148475504056883 / 4503599627370496 := by norm_num
  rw [h]
  unfold toDouble
  rw [ieeeRound_of_pos 53 (-1022) (1) _ (by norm_num) (by norm_num) (by norm_num)
    (by norm_num)]
  rw [roundNearestEven_tie_odd _ 7074237752028441 (by norm_num) (by decide)]
  norm_num

theorem theta1_rounded_succ {α : Type} [LinearOrderedField α] (fl : α → α) (M_PI : α)
    (R : Int) (i : Nat) (t s t' : α) (ht : theta1_rounded fl M_PI R i = t)
    (hs : fl (M_PI / (R : α)) = s) (hr : fl (t + s) = t') :
    theta1_rounded fl M_PI R (i + 1) = t' := by
  rw [theta1_rounded, ht, hs, hr]

/-- The angles of a pass at resolution 16 in `double` arithmetic: the value of `theta1`
after the sixteenth addition of line 168. -/
theorem theta1_rounded_16 :
    theta1_rounded toDouble (M_PI_double : ℝ) 16 16 = 3537118876014221 / 1125899906842624 := by
  have h0 : theta1_rounded toDouble (M_PI_double : ℝ) 16 0 = 0 := by
    norm_num [theta1_rounded]
  have h1 : theta1_rounded toDouble (M_PI_double : ℝ) 16 1 = 884279719003555 / 4503599627370496 :=
    theta1_rounded_succ _ _ _ 0 _ _ _ h0 toDouble_step_16 toDouble_sum_16_1
  have h2 : theta1_rounded toDouble (M_PI_double : ℝ) 16 2 = 884279719003555 / 2251799813685248 :=
    theta1_rounded_succ _ _ _ 1 _ _ _ h1 toDouble_step_16 toDouble_sum_16_2
  have h3 : theta1_rounded toDouble (M_PI_double : ℝ) 16 3 = 2652839157010665 / 4503599627370496 :=
    theta1_rounded_succ _ _ _ 2 _ _ _ h2 toDouble_step_16 toDouble_sum_16_3
  have h4 : theta1_rounded toDouble (M_PI_double : ℝ) 16 4 = 884279719003555 / 1125899906842624 :=
    theta1_rounded_succ _ _ _ 3 _ _ _ h3 toDouble_step_16 toDouble_sum_16_4
  have h5 : theta1_rounded toDouble (M_PI_double : ℝ) 16 5 = 4421398595017775 / 4503599627370496 :=
    theta1_rounded_succ _ _ _ 4 _ _ _ h4 toDouble_step_16 toDouble_sum_16_5
  have h6 : theta1_rounded toDouble (M_PI_double : ℝ) 16 6 = 2652839157010665 / 2251799813685248 :=
    theta1_rounded_succ _ _ _ 5 _ _ _ h5 toDouble_step_16 toDouble_sum_16_6
  have h7 : theta1_rounded toDouble (M_PI_double : ℝ) 16 7 = 6189958033024885 / 4503599627370496 :=
    theta1_rounded_succ _ _ _ 6 _ _ _ h6 toDouble_step_16 toDouble_sum_16_7
  have h8 : theta1_rounded toDouble (M_PI_double : ℝ) 16 8 = 884279719003555 / 562949953421312 :=
    theta1_rounded_succ _ _ _ 7 _ _ _ h7 toDouble_step_16 toDouble_sum_16_8
  have h9 : theta1_rounded toDouble (M_PI_double : ℝ) 16 9 = 7958517471031995 / 4503599627370496 :=
    theta1_rounded_succ _ _ _ 8 _ _ _ h8 toDouble_step_16 toDouble_sum_16_9
  have h10 : theta1_rounded toDouble (M_PI_double : ℝ) 16 10 = 4421398595017775 / 2251799813685248 :=
    theta1_rounded_succ _ _ _ 9 _ _ _ h9 toDouble_step_16 toDouble_sum_16_10
  have h11 : theta1_rounded toDouble (M_PI_double : ℝ) 16 11 = 18998197087967 / 8796093022208 :=
    theta1_rounded_succ _ _ _ 10 _ _ _ h10 toDouble_step_16 toDouble_sum_16_11
  have h12 : theta1_rounded toDouble (M_PI_double : ℝ) 16 12 = 2652839157010665 / 1125899906842624 :=
    theta1_rounded_succ _ _ _ 11 _ _ _ h11 toDouble_step_16 toDouble_sum_16_12
  have h13 : theta1_rounded toDouble (M_PI_double : ℝ) 16 13 = 1436954543380777 / 562949953421312 :=
    theta1_rounded_succ _ _ _ 12 _ _ _ h12 toDouble_step_16 toDouble_sum_16_13
  have h14 : theta1_rounded toDouble (M_PI_double : ℝ) 16 14 = 3094979016512443 / 1125899906842624 :=
    theta1_rounded_succ _ _ _ 13 _ _ _ h13 toDouble_step_16 toDouble_sum_16_14
  have h15 : theta1_rounded toDouble (M_PI_double : ℝ) 16 15 = 829012236565833 / 281474976710656 :=
    theta1_rounded_succ _ _ _ 14 _ _ _ h14 toDouble_step_16 toDouble_sum_16_15
  have h16 : theta1_rounded toDouble (M_PI_double : ℝ) 16 16 = 3537118876014221 / 1125899906842624 :=
    theta1_rounded_succ _ _ _ 15 _ _ _ h15 toDouble_step_16 toDouble_sum_16_16
  exact h16

/-! ## Number of candidates (C1) -/

/-- C1: for every block pose and every configuration with `angle_resolution_ = R ≥ 1`,
`generateGrasps` on an empty output vector returns `true` and leaves exactly `R + 1` grasps;
one `generateAxisGrasps` pass over `X_AXIS` or `Y_AXIS`, in either direction and whatever the
prior content of the vector, returns `true` and adds exactly `R + 1` grasps.  This holds for
every scalar type and math library, in particular over `ℝ`. -/
theorem generate_count {α : Type} [LinearOrderedField α] (m : Libm α) (block_pose : Pose α)
    (gd : RobotGraspData α) (k : Int) (hR : 1 ≤ gd.angle_resolution_) :
    (generateGrasps m block_pose gd ⟨[], k⟩).1 = true
    ∧ ((generateGrasps m block_pose gd ⟨[], k⟩).2.possible_grasps.length : Int)
        = gd.angle_resolution_ + 1
    ∧ ∀ (bgt : Affine3d α) (st : GenState α) (axis : grasp_axis_t)
        (direction : grasp_direction_t), axis = X_AXIS ∨ axis = Y_AXIS →
        (generateAxisGrasps m bgt st axis direction gd).1 = true
        ∧ ((generateAxisGrasps m bgt st axis direction gd).2.possible_grasps.length : Int)
            = st.possible_grasps.length + (gd.angle_resolution_ + 1)
        ∧ ((newGrasps st (generateAxisGrasps m bgt st axis direction gd)).length : Int)
            = gd.angle_resolution_ + 1 := by
  have hn : (((gd.angle_resolution_ + 1).toNat : Nat) : Int) = gd.angle_resolution_ + 1 :=
    Int.toNat_of_nonneg (by omega)
  refine ⟨by rw [generateGrasps_eq], ?_, ?_⟩
  · rw [generateGrasps_eq]
    simp [hn]
  · intro bgt st axis direction hax
    have hax' : axis ≠ Z_AXIS := by rcases hax with h | h <;> simp [h]
    refine ⟨by rw [generateAxisGrasps_eq m bgt st axis direction gd hax'], ?_, ?_⟩
    · rw [generateAxisGrasps_eq m bgt st axis direction gd hax']
      simp [hn]
    · rw [newGrasps_generateAxisGrasps m bgt st axis direction gd hax']
      simp [hn]

/-- C1, at resolution 4 over the reals: 5 grasps. -/
theorem generate_count_witness :
    (1 : Int) ≤ (exampleGraspData 4 : RobotGraspData ℝ).angle_resolution_
    ∧ (generateGrasps (Libm.mk Real.sin Real.cos Real.sqrt Real.pi toFloat32) identityPose
        (exampleGraspData 4) ⟨[], 0⟩).1 = true
    ∧ ((generateGrasps (Libm.mk Real.sin Real.cos Real.sqrt Real.pi toFloat32) identityPose
        (exampleGraspData 4) ⟨[], 0⟩).2.possible_grasps.length : Int) = 4 + 1 :=
  ⟨by decide,
   (generate_count (Libm.mk Real.sin Real.cos Real.sqrt Real.pi toFloat32) identityPose
      (exampleGraspData 4) 0 (by decide)).1,
   (generate_count (Libm.mk Real.sin Real.cos Real.sqrt Real.pi toFloat32) identityPose
      (exampleGraspData 4) 0 (by decide)).2.1⟩

/-! ## Composition of the world pose (C2) -/

/-- C2: for every candidate appended by `generateAxisGrasps` over `X_AXIS` or `Y_AXIS`
(the candidate number `i`, `i = 0..angle_resolution_`), when `block_pose` and
`grasp_pose_to_eef_pose_` have unit quaternions, the pose of the candidate, read back as a
homogeneous transform, is the product `T_block * T_local * T_eef` in this order, where
`T_block` is the transform of `block_pose`, `T_local` the local grasp pose sampled at the
angle of the iteration and `T_eef` the transform of `grasp_pose_to_eef_pose_`; the pose
carries the frame `base_link_`. -/
theorem world_pose_composition (block_pose : Pose ℝ) (st : GenState ℝ) (axis : grasp_axis_t)
    (direction : grasp_direction_t) (gd : RobotGraspData ℝ)
    (hax : axis = X_AXIS ∨ axis = Y_AXIS) (hb : block_pose.IsRigid)
    (he : gd.grasp_pose_to_eef_pose_.IsRigid) (i : Nat)
    (hi : (i : Int) ≤ gd.angle_resolution_) :
    ∃ (g : Grasp ℝ) (T_local : Affine3d ℝ),
      (newGrasps st (generateAxisGrasps (Libm.mk Real.sin Real.cos Real.sqrt Real.pi toFloat32)
        (poseMsgToEigen block_pose) st axis direction gd))[i]? = some g
      ∧ localGraspPose (Libm.mk Real.sin Real.cos Real.sqrt Real.pi toFloat32) axis gd.grasp_depth_
          (theta1_at (Libm.mk Real.sin Real.cos Real.sqrt Real.pi toFloat32) gd i)
          (flipAngle (Libm.mk Real.sin Real.cos Real.sqrt Real.pi toFloat32) direction) = some T_local
      ∧ (poseMsgToEigen g.grasp_pose.pose).matrix
          = (poseMsgToEigen block_pose).matrix * T_local.matrix
            * (poseMsgToEigen gd.grasp_pose_to_eef_pose_).matrix
      ∧ g.grasp_pose.header.frame_id = gd.base_link_ := by
  have hax' : axis ≠ Z_AXIS := by rcases hax with h | h <;> simp [h]
  refine ⟨_, _, newGrasps_getElem? _ _ st axis direction gd hax i hi,
    localGraspPose_eq_some _ axis _ _ _ hax', ?_, rfl⟩
  rw [newGrasp_pose _ gd _ _ _ (poseMsgToEigen_isRigid _ hb) (localPose_isRigid _ _ _ _) he,
    matrix_mul, matrix_mul, Matrix.mul_assoc]

/-- C2, at the pose `examplePose`, resolution 4, candidate 1 of the pass over `Y_AXIS`,
`DOWN`. -/
theorem world_pose_composition_witness :
    ∃ (g : Grasp ℝ) (T_local : Affine3d ℝ),
      (newGrasps ⟨[], 0⟩ (generateAxisGrasps (Libm.mk Real.sin Real.cos Real.sqrt Real.pi toFloat32)
        (poseMsgToEigen examplePose) ⟨[], 0⟩ Y_AXIS DOWN (exampleGraspData 4)))[1]? = some g
      ∧ localGraspPose (Libm.mk Real.sin Real.cos Real.sqrt Real.pi toFloat32) Y_AXIS
          (exampleGraspData 4 : RobotGraspData ℝ).grasp_depth_
          (theta1_at (Libm.mk Real.sin Real.cos Real.sqrt Real.pi toFloat32) (exampleGraspData 4) 1)
          (flipAngle (Libm.mk Real.sin Real.cos Real.sqrt Real.pi toFloat32) DOWN) = some T_local
      ∧ (poseMsgToEigen g.grasp_pose.pose).matrix
          = (poseMsgToEigen examplePose).matrix * T_local.matrix
            * (poseMsgToEigen
                (exampleGraspData 4 : RobotGraspData ℝ).grasp_pose_to_eef_pose_).matrix
      ∧ g.grasp_pose.header.frame_id
          = (exampleGraspData 4 : RobotGraspData ℝ).base_link_ :=
  world_pose_composition examplePose ⟨[], 0⟩ Y_AXIS DOWN (exampleGraspData 4) (Or.inr rfl)
    examplePose_isRigid identityPose_isRigid 1 (by decide)

/-! ## Quality (C3, C4) -/

/-- C3: for every `R = angle_resolution_ ≥ 1` and every `i` in `0..R`, the candidate
number `i` of one `generateAxisGrasps` pass (over `X_AXIS` or `Y_AXIS`) has the quality
`max (sin θᵢ) 0.1` with `θᵢ = i * π / R`, over the reals, whatever the axis, the direction,
the radius `grasp_depth_` and the block transform. -/
theorem grasp_quality_eq (bgt : Affine3d ℝ) (st : GenState ℝ) (axis : grasp_axis_t)
    (direction : grasp_direction_t) (gd : RobotGraspData ℝ)
    (hax : axis = X_AXIS ∨ axis = Y_AXIS) (hR : 1 ≤ gd.angle_resolution_)
    (i : Nat) (hi : (i : Int) ≤ gd.angle_resolution_) :
    ∃ g : Grasp ℝ,
      (newGrasps st (generateAxisGrasps (Libm.mk Real.sin Real.cos Real.sqrt Real.pi toFloat32) bgt st
        axis direction gd))[i]? = some g
      ∧ theta1_at (Libm.mk Real.sin Real.cos Real.sqrt Real.pi toFloat32) gd i
          = (i : ℝ) * Real.pi / (gd.angle_resolution_ : ℝ)
      ∧ g.grasp_quality
          = max (Real.sin ((i : ℝ) * Real.pi / (gd.angle_resolution_ : ℝ))) 0.1 := by
  have hR' : (gd.angle_resolution_ : ℝ) ≠ 0 := by
    have : (0 : Int) < gd.angle_resolution_ := by omega
    exact_mod_cast this.ne'
  have hth : theta1_at (Libm.mk Real.sin Real.cos Real.sqrt Real.pi toFloat32) gd i
      = (i : ℝ) * Real.pi / (gd.angle_resolution_ : ℝ) := by
    rw [theta1_at_eq]
    field_simp
  refine ⟨_, newGrasps_getElem? _ bgt st axis direction gd hax i hi, hth, ?_⟩
  simp only [newGrasp, std_max_eq_max, hth]

/-- C3, at resolution 4, sample 2 of a pass over `X_AXIS`, `UP`. -/
theorem grasp_quality_eq_witness :
    ∃ g : Grasp ℝ,
      (newGrasps ⟨[], 0⟩ (generateAxisGrasps (Libm.mk Real.sin Real.cos Real.sqrt Real.pi toFloat32)
        (poseMsgToEigen identityPose) ⟨[], 0⟩ X_AXIS UP (exampleGraspData 4)))[2]? = some g
      ∧ theta1_at (Libm.mk Real.sin Real.cos Real.sqrt Real.pi toFloat32) (exampleGraspData 4) 2
          = ((2 : Nat) : ℝ) * Real.pi / (((exampleGraspData 4 : RobotGraspData ℝ).angle_resolution_
              : Int) : ℝ)
      ∧ g.grasp_quality
          = max (Real.sin (((2 : Nat) : ℝ) * Real.pi
              / (((exampleGraspData 4 : RobotGraspData ℝ).angle_resolution_ : Int) : ℝ))) 0.1 :=
  grasp_quality_eq (poseMsgToEigen identityPose) ⟨[], 0⟩ X_AXIS UP (exampleGraspData 4)
    (Or.inl rfl) (by decide) 2 (by decide)

/-- C4: every candidate appended by `generateAxisGrasps` has a quality `q` with
`0.1 ≤ q ≤ 1.0`, over the reals; this holds for every configuration, so in particular
for `angle_resolution_ ≥ 1`. -/
theorem grasp_quality_bounds (bgt : Affine3d ℝ) (st : GenState ℝ) (axis : grasp_axis_t)
    (direction : grasp_direction_t) (gd : RobotGraspData ℝ) :
    ∀ g ∈ newGrasps st (generateAxisGrasps (Libm.mk Real.sin Real.cos Real.sqrt Real.pi toFloat32) bgt
        st axis direction gd),
      (0.1 : ℝ) ≤ g.grasp_quality ∧ g.grasp_quality ≤ 1.0 := by
  intro g hg
  obtain ⟨j, _, rfl⟩ := mem_newGrasps _ bgt st axis direction gd g hg
  simp only [passGrasp, newGrasp, std_max_eq_max]
  refine ⟨le_max_right _ _, max_le ?_ (by norm_num)⟩
  exact (Real.sin_le_one _).trans (by norm_num)

/-- C4, at resolution 4: the candidate 2 of the pass over `Y_AXIS`, `DOWN`. -/
theorem grasp_quality_bounds_witness :
    ∃ g : Grasp ℝ,
      g ∈ newGrasps ⟨[], 0⟩ (generateAxisGrasps (Libm.mk Real.sin Real.cos Real.sqrt Real.pi toFloat32)
        (poseMsgToEigen identityPose) ⟨[], 0⟩ Y_AXIS DOWN (exampleGraspData 4))
      ∧ (0.1 : ℝ) ≤ g.grasp_quality ∧ g.grasp_quality ≤ 1.0 :=
  ⟨_, passGrasp_mem_newGrasps _ _ _ Y_AXIS DOWN (exampleGraspData 4) (by decide) 2 (by decide),
    grasp_quality_bounds (poseMsgToEigen identityPose) ⟨[], 0⟩ Y_AXIS DOWN (exampleGraspData 4)
      _ (passGrasp_mem_newGrasps _ _ _ Y_AXIS DOWN (exampleGraspData 4) (by decide) 2
        (by decide))⟩

/-! ## Resolutions below 1 (C5) -/

/-- C5, counterexample: with `angle_resolution_ = 0` the generator does not reject the
configuration: `generateGrasps` returns `true` and one candidate is in the vector. -/
theorem generateGrasps_resolution_zero_accepted :
    (exampleGraspData 0 : RobotGraspData ℝ).angle_resolution_ ≤ 0
    ∧ (generateGrasps (Libm.mk Real.sin Real.cos Real.sqrt Real.pi toFloat32) identityPose
        (exampleGraspData 0) ⟨[], 0⟩).1 = true
    ∧ (generateGrasps (Libm.mk Real.sin Real.cos Real.sqrt Real.pi toFloat32) identityPose
        (exampleGraspData 0) ⟨[], 0⟩).2.possible_grasps.length = 1 := by
  refine ⟨by decide, by rw [generateGrasps_eq], ?_⟩
  rw [generateGrasps_eq]
  simp [exampleGraspData]

/-- C5, as amended: for every `angle_resolution_ = R ≤ 0` the generator makes no check of
the configuration; `generateGrasps` returns `true`, for `R = 0` exactly one candidate is
appended to the vector (the loop body runs once, for `i = 0`, and the quotient
`M_PI / 0` is added to `theta1` only after that candidate is built), and for `R < 0` the
vector is left as it was. -/
theorem generateGrasps_resolution_nonpositive {α : Type} [LinearOrderedField α] (m : Libm α)
    (block_pose : Pose α) (gd : RobotGraspData α) (st : GenState α)
    (hR : gd.angle_resolution_ ≤ 0) :
    (generateGrasps m block_pose gd st).1 = true
    ∧ ((gd.angle_resolution_ = 0 ∧ ∃ g : Grasp α,
          (generateGrasps m block_pose gd st).2.possible_grasps = st.possible_grasps ++ [g])
      ∨ (gd.angle_resolution_ < 0 ∧
          (generateGrasps m block_pose gd st).2.possible_grasps = st.possible_grasps)) := by
  refine ⟨by rw [generateGrasps_eq], ?_⟩
  rcases hR.lt_or_eq with hneg | h0
  · right
    have hz : (gd.angle_resolution_ + 1).toNat = 0 := by omega
    refine ⟨hneg, ?_⟩
    rw [generateGrasps_eq]
    simp [hz]
  · left
    refine ⟨h0, passGrasp m (poseMsgToEigen block_pose) Y_AXIS m.M_PI gd 0 st.grasp_id 0, ?_⟩
    rw [generateGrasps_eq]
    simp [h0, List.range_succ]

/-- C5 as amended, at resolution `-3` over the reals. -/
theorem generateGrasps_resolution_nonpositive_witness :
    (exampleGraspData (-3) : RobotGraspData ℝ).angle_resolution_ ≤ 0
    ∧ (generateGrasps (Libm.mk Real.sin Real.cos Real.sqrt Real.pi toFloat32) identityPose
        (exampleGraspData (-3)) ⟨[], 0⟩).1 = true :=
  ⟨by decide,
   (generateGrasps_resolution_nonpositive (Libm.mk Real.sin Real.cos Real.sqrt Real.pi toFloat32)
      identityPose (exampleGraspData (-3)) ⟨[], 0⟩ (by decide)).1⟩

/-! ## The unsupported axis (C6) -/

/-- C6, counterexample: with a negative `angle_resolution_` the loop body, which holds the
`Z_AXIS` case, is never entered, and `generateAxisGrasps` returns `true` for `Z_AXIS`. -/
theorem generateAxisGrasps_Z_AXIS_negative_resolution :
    (generateAxisGrasps (Libm.mk Real.sin Real.cos Real.sqrt Real.pi toFloat32)
      (poseMsgToEigen identityPose) ⟨[], 0⟩ Z_AXIS UP (exampleGraspData (-1))).1 = true := by
  simp [generateAxisGrasps, loop_Z_AXIS, exampleGraspData]

/-- C6, as amended: for every direction, configuration and prior content of the output
vector, `generateAxisGrasps` with `Z_AXIS` leaves the vector and the id counter exactly as
they were, and when `angle_resolution_ ≥ 0` it returns `false` (in its first iteration). -/
theorem generateAxisGrasps_Z_AXIS {α : Type} [LinearOrderedField α] (m : Libm α)
    (bgt : Affine3d α) (st : GenState α) (direction : grasp_direction_t)
    (gd : RobotGraspData α) :
    (generateAxisGrasps m bgt st Z_AXIS direction gd).2 = st
    ∧ (0 ≤ gd.angle_resolution_ →
        (generateAxisGrasps m bgt st Z_AXIS direction gd).1 = false) := by
  simp [generateAxisGrasps, loop_Z_AXIS]

/-- C6 as amended, at resolution 4 with two grasps already in the vector. -/
theorem generateAxisGrasps_Z_AXIS_witness :
    (generateAxisGrasps (Libm.mk Real.sin Real.cos Real.sqrt Real.pi toFloat32)
        (poseMsgToEigen identityPose)
        (generateGrasps (Libm.mk Real.sin Real.cos Real.sqrt Real.pi toFloat32) identityPose
          (exampleGraspData 1) ⟨[], 0⟩).2 Z_AXIS DOWN (exampleGraspData 4)).1 = false :=
  (generateAxisGrasps_Z_AXIS (Libm.mk Real.sin Real.cos Real.sqrt Real.pi toFloat32)
    (poseMsgToEigen identityPose)
    (generateGrasps (Libm.mk Real.sin Real.cos Real.sqrt Real.pi toFloat32) identityPose
      (exampleGraspData 1) ⟨[], 0⟩).2 DOWN (exampleGraspData 4)).2 (by decide)

/-! ## Approach and retreat (C7) -/

/-- C7, counterexample: with `approach_retreat_desired_dist_ = 0.05` the desired distance
stored in the approach descriptor of a candidate is the `float` nearest to `0.05`,
`13421773 / 2^28 = 0.0500000007450580596923828125`, and not the value of the
configuration. -/
theorem approach_distance_narrowed :
    ∃ g : Grasp ℝ,
      g ∈ newGrasps ⟨[], 0⟩ (generateAxisGrasps
        (Libm.mk Real.sin Real.cos Real.sqrt Real.pi toFloat32)
        (poseMsgToEigen identityPose) ⟨[], 0⟩ Y_AXIS DOWN (exampleGraspData 4))
      ∧ (exampleGraspData 4 : RobotGraspData ℝ).approach_retreat_desired_dist_ = 0.05
      ∧ g.approach.desired_distance = 13421773 / 268435456
      ∧ g.approach.desired_distance
          ≠ (exampleGraspData 4 : RobotGraspData ℝ).approach_retreat_desired_dist_ := by
  refine ⟨_, passGrasp_mem_newGrasps _ _ _ Y_AXIS DOWN (exampleGraspData 4) (by decide) 0
    (by decide), rfl, ?_, ?_⟩
  · simp only [passGrasp, newGrasp, exampleGraspData]
    exact toFloat32_desired_dist
  · simp only [passGrasp, newGrasp, exampleGraspData]
    rw [toFloat32_desired_dist]
    norm_num

/-- C7, as amended: for every candidate appended by `generateAxisGrasps` the approach
direction is `(0, 0, 1)` and the retreat direction is `(0, 0, -1)`, the opposite vector
component by component; both are in the frame `ee_parent_link_`, and both carry, in their
`float32` fields, the desired distance `approach_retreat_desired_dist_` and the minimum
distance `approach_retreat_min_dist_` of the configuration converted to `float`.  This
holds for every scalar type, math library and conversion. -/
theorem approach_retreat {α : Type} [LinearOrderedField α] (m : Libm α)
    (bgt : Affine3d α) (st : GenState α) (axis : grasp_axis_t)
    (direction : grasp_direction_t) (gd : RobotGraspData α) :
    ∀ g ∈ newGrasps st (generateAxisGrasps m bgt st axis direction gd),
      g.approach.direction.vector = { x := 0, y := 0, z := 1 }
      ∧ g.retreat.direction.vector = { x := 0, y := 0, z := -1 }
      ∧ g.retreat.direction.vector.x = - g.approach.direction.vector.x
      ∧ g.retreat.direction.vector.y = - g.approach.direction.vector.y
      ∧ g.retreat.direction.vector.z = - g.approach.direction.vector.z
      ∧ g.approach.direction.header.frame_id = gd.ee_parent_link_
      ∧ g.retreat.direction.header.frame_id = gd.ee_parent_link_
      ∧ g.approach.desired_distance = m.toFloat gd.approach_retreat_desired_dist_
      ∧ g.retreat.desired_distance = m.toFloat gd.approach_retreat_desired_dist_
      ∧ g.approach.min_distance = m.toFloat gd.approach_retreat_min_dist_
      ∧ g.retreat.min_distance = m.toFloat gd.approach_retreat_min_dist_ := by
  intro g hg
  obtain ⟨j, _, rfl⟩ := mem_newGrasps m bgt st axis direction gd g hg
  simp [passGrasp, newGrasp]

/-- C7 as amended, at resolution 4 over the reals with the IEEE 754 conversion: the
candidate 3 of the pass over `X_AXIS`, `UP`. -/
theorem approach_retreat_witness :
    ∃ g : Grasp ℝ,
      g ∈ newGrasps ⟨[], 0⟩ (generateAxisGrasps
        (Libm.mk Real.sin Real.cos Real.sqrt Real.pi toFloat32)
        (poseMsgToEigen identityPose) ⟨[], 0⟩ X_AXIS UP (exampleGraspData 4))
      ∧ g.approach.direction.vector = { x := 0, y := 0, z := 1 }
      ∧ g.retreat.direction.vector = { x := 0, y := 0, z := -1 }
      ∧ g.approach.desired_distance
          = toFloat32 (exampleGraspData 4 : RobotGraspData ℝ).approach_retreat_desired_dist_
      ∧ g.retreat.desired_distance
          = toFloat32 (exampleGraspData 4 : RobotGraspData ℝ).approach_retreat_desired_dist_ :=
  ⟨_, passGrasp_mem_newGrasps _ _ _ X_AXIS UP (exampleGraspData 4) (by decide) 3 (by decide),
    ((approach_retreat (Libm.mk Real.sin Real.cos Real.sqrt Real.pi toFloat32)
      (poseMsgToEigen identityPose) ⟨[], 0⟩ X_AXIS UP (exampleGraspData 4)) _
      (passGrasp_mem_newGrasps _ _ _ X_AXIS UP (exampleGraspData 4) (by decide) 3
        (by decide))).1,
    ((approach_retreat (Libm.mk Real.sin Real.cos Real.sqrt Real.pi toFloat32)
      (poseMsgToEigen identityPose) ⟨[], 0⟩ X_AXIS UP (exampleGraspData 4)) _
      (passGrasp_mem_newGrasps _ _ _ X_AXIS UP (exampleGraspData 4) (by decide) 3
        (by decide))).2.1,
    ((approach_retreat (Libm.mk Real.sin Real.cos Real.sqrt Real.pi toFloat32)
      (poseMsgToEigen identityPose) ⟨[], 0⟩ X_AXIS UP (exampleGraspData 4)) _
      (passGrasp_mem_newGrasps _ _ _ X_AXIS UP (exampleGraspData 4) (by decide) 3
        (by decide))).2.2.2.2.2.2.2.1,
    ((approach_retreat (Libm.mk Real.sin Real.cos Real.sqrt Real.pi toFloat32)
      (poseMsgToEigen identityPose) ⟨[], 0⟩ X_AXIS UP (exampleGraspData 4)) _
      (passGrasp_mem_newGrasps _ _ _ X_AXIS UP (exampleGraspData 4) (by decide) 3
        (by decide))).2.2.2.2.2.2.2.2.1⟩

/-! ## Candidate ids (C8) -/

/-- C8: within one `generateGrasps` call with `angle_resolution_ = R ≥ 1`, entered with
the id counter at `k`, the candidate number `i` (`i = 0..R`) has the id `"Grasp"` followed
by the decimal numeral of `k + i`; so the numbers in the ids increase strictly in output
order, the ids are pairwise distinct, and the counter is left at `k + R + 1`.  This holds
for every scalar type and math library. -/
theorem grasp_ids {α : Type} [LinearOrderedField α] (m : Libm α) (block_pose : Pose α)
    (gd : RobotGraspData α) (st : GenState α) (hR : 1 ≤ gd.angle_resolution_) :
    ((newGrasps st (generateGrasps m block_pose gd st)).length : Int)
        = gd.angle_resolution_ + 1
    ∧ (∀ i : Nat, (i : Int) ≤ gd.angle_resolution_ →
        ∃ g : Grasp α, (newGrasps st (generateGrasps m block_pose gd st))[i]? = some g
          ∧ g.id = "Grasp" ++ lexical_cast (st.grasp_id + (i : Int)))
    ∧ ((newGrasps st (generateGrasps m block_pose gd st)).map Grasp.id).Pairwise
        (fun a b => ∃ n n' : Int,
          a = "Grasp" ++ lexical_cast n ∧ b = "Grasp" ++ lexical_cast n' ∧ n < n')
    ∧ ((newGrasps st (generateGrasps m block_pose gd st)).map Grasp.id).Nodup
    ∧ (generateGrasps m block_pose gd st).2.grasp_id
        = st.grasp_id + (gd.angle_resolution_ + 1) := by
  have hn : (((gd.angle_resolution_ + 1).toNat : Nat) : Int) = gd.angle_resolution_ + 1 :=
    Int.toNat_of_nonneg (by omega)
  have hids : (newGrasps st (generateGrasps m block_pose gd st)).map Grasp.id
      = (List.range (gd.angle_resolution_ + 1).toNat).map
          (fun i : Nat => "Grasp" ++ lexical_cast (st.grasp_id + (i : Int))) := by
    rw [newGrasps_generateGrasps, List.map_map]
    apply List.map_congr_left
    intro j _
    simp [passGrasp_id]
  refine ⟨?_, ?_, ?_, ?_, ?_⟩
  · rw [newGrasps_generateGrasps]
    simp [hn]
  · intro i hi
    have hlt : i < (gd.angle_resolution_ + 1).toNat := by omega
    refine ⟨passGrasp m (poseMsgToEigen block_pose) Y_AXIS m.M_PI gd 0 st.grasp_id i, ?_,
      passGrasp_id _ _ _ _ _ _ _ _⟩
    rw [newGrasps_generateGrasps]
    simp [hlt]
  · rw [hids, List.pairwise_map]
    refine List.Pairwise.imp ?_ (List.pairwise_lt_range _)
    intro a b hab
    exact ⟨st.grasp_id + (a : Int), st.grasp_id + (b : Int), rfl, rfl, by omega⟩
  · rw [hids]
    exact (List.nodup_range _).map (grasp_id_injective st.grasp_id)
  · rw [generateGrasps_eq]
    simp [hn]

/-- C8, at resolution 4 with the counter at 7: the candidates 0 and 4 have the ids
`Grasp7` and `Grasp11`. -/
theorem grasp_ids_witness :
    ("Grasp" ++ lexical_cast (7 + ((0 : Nat) : Int)) = "Grasp7"
      ∧ "Grasp" ++ lexical_cast (7 + ((4 : Nat) : Int)) = "Grasp11")
    ∧ (∀ i : Nat, (i : Int) ≤ (exampleGraspData 4 : RobotGraspData ℝ).angle_resolution_ →
        ∃ g : Grasp ℝ,
          (newGrasps ⟨[], 7⟩ (generateGrasps (Libm.mk Real.sin Real.cos Real.sqrt Real.pi toFloat32)
            identityPose (exampleGraspData 4) ⟨[], 7⟩))[i]? = some g
          ∧ g.id = "Grasp" ++ lexical_cast (7 + (i : Int))) :=
  ⟨⟨by simp [lexical_cast, natDecimal]; decide, by simp [lexical_cast, natDecimal]; decide⟩,
   (grasp_ids (Libm.mk Real.sin Real.cos Real.sqrt Real.pi toFloat32) identityPose
      (exampleGraspData 4) ⟨[], 7⟩ (by decide)).2.1⟩

/-! ## Round trip of the world pose (C9) -/

/-- C9: round trip.  For every candidate appended by `generateAxisGrasps` over `X_AXIS` or
`Y_AXIS`, when `block_pose` and `grasp_pose_to_eef_pose_` have unit quaternions, the
inverse of the block transform on the left and the inverse of the end-effector correction
on the right of the candidate's pose give back the local grasp pose sampled at the angle
of the iteration: `T_block⁻¹ * T_world * T_eef⁻¹ = T_local`, exactly, over the reals. -/
theorem world_pose_round_trip (block_pose : Pose ℝ) (st : GenState ℝ) (axis : grasp_axis_t)
    (direction : grasp_direction_t) (gd : RobotGraspData ℝ)
    (hax : axis = X_AXIS ∨ axis = Y_AXIS) (hb : block_pose.IsRigid)
    (he : gd.grasp_pose_to_eef_pose_.IsRigid) (i : Nat)
    (hi : (i : Int) ≤ gd.angle_resolution_) :
    ∃ (g : Grasp ℝ) (T_local : Affine3d ℝ),
      (newGrasps st (generateAxisGrasps (Libm.mk Real.sin Real.cos Real.sqrt Real.pi toFloat32)
        (poseMsgToEigen block_pose) st axis direction gd))[i]? = some g
      ∧ localGraspPose (Libm.mk Real.sin Real.cos Real.sqrt Real.pi toFloat32) axis gd.grasp_depth_
          (theta1_at (Libm.mk Real.sin Real.cos Real.sqrt Real.pi toFloat32) gd i)
          (flipAngle (Libm.mk Real.sin Real.cos Real.sqrt Real.pi toFloat32) direction) = some T_local
      ∧ (poseMsgToEigen block_pose).matrix⁻¹ * (poseMsgToEigen g.grasp_pose.pose).matrix
            * (poseMsgToEigen gd.grasp_pose_to_eef_pose_).matrix⁻¹
          = T_local.matrix := by
  have hax' : axis ≠ Z_AXIS := by rcases hax with h | h <;> simp [h]
  have hB := rigid_inv_mul _ (poseMsgToEigen_isRigid _ hb)
  have hE := rigid_inv_mul _ (poseMsgToEigen_isRigid _ he)
  refine ⟨_, _, newGrasps_getElem? _ _ st axis direction gd hax i hi,
    localGraspPose_eq_some _ axis _ _ _ hax', ?_⟩
  rw [newGrasp_pose _ gd _ _ _ (poseMsgToEigen_isRigid _ hb) (localPose_isRigid _ _ _ _) he,
    matrix_mul, matrix_mul, ← Matrix.mul_assoc, hB.1, Matrix.one_mul, Matrix.mul_assoc, hE.2,
    Matrix.mul_one]

/-- C9, at the pose `examplePose`, resolution 4, candidate 3 of the pass over `X_AXIS`,
`UP`. -/
theorem world_pose_round_trip_witness :
    ∃ (g : Grasp ℝ) (T_local : Affine3d ℝ),
      (newGrasps ⟨[], 0⟩ (generateAxisGrasps (Libm.mk Real.sin Real.cos Real.sqrt Real.pi toFloat32)
        (poseMsgToEigen examplePose) ⟨[], 0⟩ X_AXIS UP (exampleGraspData 4)))[3]? = some g
      ∧ localGraspPose (Libm.mk Real.sin Real.cos Real.sqrt Real.pi toFloat32) X_AXIS
          (exampleGraspData 4 : RobotGraspData ℝ).grasp_depth_
          (theta1_at (Libm.mk Real.sin Real.cos Real.sqrt Real.pi toFloat32) (exampleGraspData 4) 3)
          (flipAngle (Libm.mk Real.sin Real.cos Real.sqrt Real.pi toFloat32) UP) = some T_local
      ∧ (poseMsgToEigen examplePose).matrix⁻¹ * (poseMsgToEigen g.grasp_pose.pose).matrix
            * (poseMsgToEigen
                (exampleGraspData 4 : RobotGraspData ℝ).grasp_pose_to_eef_pose_).matrix⁻¹
          = T_local.matrix :=
  world_pose_round_trip examplePose ⟨[], 0⟩ X_AXIS UP (exampleGraspData 4) (Or.inl rfl)
    examplePose_isRigid identityPose_isRigid 3 (by decide)

/-! ## Sample angles (C10) -/

/-- C10, counterexample: in `double` arithmetic at `angle_resolution_ = 16` the step
`M_PI / 16` is exact, and the sixteen rounded additions of line 168 leave `theta1` at
`3537118876014221 / 2^50 = 3.14159265358979400...`, one unit in the last place above
`M_PI = 3537118876014220 / 2^50`: the last angle is not `M_PI` and lies outside
`[0, M_PI]`, and outside `[0, π]` as well. -/
theorem last_angle_exceeds_pi :
    theta1_rounded toDouble (M_PI_double : ℝ) 16 16 = 3537118876014221 / 1125899906842624
    ∧ (M_PI_double : ℝ) = 3537118876014220 / 1125899906842624
    ∧ theta1_rounded toDouble (M_PI_double : ℝ) 16 16 ≠ M_PI_double
    ∧ (M_PI_double : ℝ) < theta1_rounded toDouble (M_PI_double : ℝ) 16 16
    ∧ Real.pi < theta1_rounded toDouble (M_PI_double : ℝ) 16 16 := by
  rw [theta1_rounded_16]
  refine ⟨rfl, by norm_num [M_PI_double], by norm_num [M_PI_double],
    by norm_num [M_PI_double], ?_⟩
  exact Real.pi_lt_d20.trans (by norm_num)

/-- C10, as amended: for every `R = angle_resolution_ ≥ 1`, one `generateAxisGrasps` pass
over a supported axis builds its `R + 1` candidates, in order, from the angles
`theta1_at 0, ..., theta1_at R`, which start at `0` and grow by the step `M_PI / R`; in
exact real arithmetic `theta1_at i = i * π / R`: the first angle is `0`, the last is
exactly `π`, every angle lies in `[0, π]`, and consecutive angles differ by the constant
step `π / R`. -/
theorem sample_angles (bgt : Affine3d ℝ) (st : GenState ℝ) (axis : grasp_axis_t)
    (direction : grasp_direction_t) (gd : RobotGraspData ℝ)
    (hax : axis = X_AXIS ∨ axis = Y_AXIS) (hR : 1 ≤ gd.angle_resolution_) :
    newGrasps st (generateAxisGrasps (Libm.mk Real.sin Real.cos Real.sqrt Real.pi toFloat32) bgt st
        axis direction gd)
      = (List.range (gd.angle_resolution_ + 1).toNat).map (fun i =>
          newGrasp (Libm.mk Real.sin Real.cos Real.sqrt Real.pi toFloat32) bgt gd
            (localPose (Libm.mk Real.sin Real.cos Real.sqrt Real.pi toFloat32) axis gd.grasp_depth_
              (theta1_at (Libm.mk Real.sin Real.cos Real.sqrt Real.pi toFloat32) gd i)
              (flipAngle (Libm.mk Real.sin Real.cos Real.sqrt Real.pi toFloat32) direction))
            (theta1_at (Libm.mk Real.sin Real.cos Real.sqrt Real.pi toFloat32) gd i)
            (st.grasp_id + (i : Int)))
    ∧ (((gd.angle_resolution_ + 1).toNat : Nat) : Int) = gd.angle_resolution_ + 1
    ∧ (∀ i : Nat, theta1_at (Libm.mk Real.sin Real.cos Real.sqrt Real.pi toFloat32) gd i
        = (i : ℝ) * Real.pi / (gd.angle_resolution_ : ℝ))
    ∧ theta1_at (Libm.mk Real.sin Real.cos Real.sqrt Real.pi toFloat32) gd 0 = 0
    ∧ theta1_at (Libm.mk Real.sin Real.cos Real.sqrt Real.pi toFloat32) gd gd.angle_resolution_.toNat
        = Real.pi
    ∧ (∀ i : Nat, (i : Int) ≤ gd.angle_resolution_ →
        0 ≤ theta1_at (Libm.mk Real.sin Real.cos Real.sqrt Real.pi toFloat32) gd i
        ∧ theta1_at (Libm.mk Real.sin Real.cos Real.sqrt Real.pi toFloat32) gd i ≤ Real.pi)
    ∧ (∀ i : Nat, theta1_at (Libm.mk Real.sin Real.cos Real.sqrt Real.pi toFloat32) gd (i + 1)
        - theta1_at (Libm.mk Real.sin Real.cos Real.sqrt Real.pi toFloat32) gd i
        = Real.pi / (gd.angle_resolution_ : ℝ)) := by
  have hax' : axis ≠ Z_AXIS := by rcases hax with h | h <;> simp [h]
  have hpos : (0 : ℝ) < (gd.angle_resolution_ : ℝ) := by
    have : (0 : Int) < gd.angle_resolution_ := by omega
    exact_mod_cast this
  have hth : ∀ i : Nat, theta1_at (Libm.mk Real.sin Real.cos Real.sqrt Real.pi toFloat32) gd i
      = (i : ℝ) * Real.pi / (gd.angle_resolution_ : ℝ) := by
    intro i
    rw [theta1_at_eq]
    field_simp
  have hcast : ((gd.angle_resolution_.toNat : Nat) : ℝ) = (gd.angle_resolution_ : ℝ) := by
    have h : ((gd.angle_resolution_.toNat : Nat) : Int) = gd.angle_resolution_ :=
      Int.toNat_of_nonneg (by omega)
    exact_mod_cast congrArg (Int.cast : Int → ℝ) h
  refine ⟨?_, Int.toNat_of_nonneg (by omega), hth, ?_, ?_, ?_, ?_⟩
  · rw [newGrasps_generateAxisGrasps _ bgt st axis direction gd hax']
    apply List.map_congr_left
    intro j _
    rw [passGrasp_eq]
  · rw [hth]
    simp
  · rw [hth, hcast]
    field_simp
  · intro i hi
    have hi' : (i : ℝ) ≤ (gd.angle_resolution_ : ℝ) := by exact_mod_cast hi
    rw [hth]
    constructor
    · positivity
    · rw [div_le_iff₀ hpos]
      nlinarith [Real.pi_pos]
  · intro i
    rw [theta1_at]
    ring

/-- C10, at resolution 4 over `Y_AXIS`, `DOWN`. -/
theorem sample_angles_witness :
    theta1_at (Libm.mk Real.sin Real.cos Real.sqrt Real.pi toFloat32)
        (exampleGraspData 4 : RobotGraspData ℝ) 0 = 0
    ∧ theta1_at (Libm.mk Real.sin Real.cos Real.sqrt Real.pi toFloat32)
        (exampleGraspData 4 : RobotGraspData ℝ)
        (exampleGraspData 4 : RobotGraspData ℝ).angle_resolution_.toNat = Real.pi :=
  ⟨(sample_angles (poseMsgToEigen identityPose) ⟨[], 0⟩ Y_AXIS DOWN (exampleGraspData 4)
      (Or.inr rfl) (by decide)).2.2.2.1,
   (sample_angles (poseMsgToEigen identityPose) ⟨[], 0⟩ Y_AXIS DOWN (exampleGraspData 4)
      (Or.inr rfl) (by decide)).2.2.2.2.1⟩

/-! ## Position of the local grasp pose (C11) -/

/-- C11: for every sample angle `θ`, radius `r` and flip angle, the translation of the
local grasp pose (before the end-effector correction) is `(r cos θ, 0, r sin θ)` for
`Y_AXIS` and `(0, r cos θ, r sin θ)` for `X_AXIS`; the component along the sampling axis is
zero and the point is at the distance `|r|` from the block centre, so it lies on a ring in
the plane perpendicular to the sampling axis (over the reals). -/
theorem local_translation (r theta theta2 : ℝ) :
    (∃ T : Affine3d ℝ,
      localGraspPose (Libm.mk Real.sin Real.cos Real.sqrt Real.pi toFloat32) Y_AXIS r theta theta2
        = some T
      ∧ T.translation = ![r * Real.cos theta, 0, r * Real.sin theta]
      ∧ T.translation 1 = 0
      ∧ Real.sqrt (T.translation 0 ^ 2 + T.translation 1 ^ 2 + T.translation 2 ^ 2) = |r|)
    ∧ (∃ T : Affine3d ℝ,
      localGraspPose (Libm.mk Real.sin Real.cos Real.sqrt Real.pi toFloat32) X_AXIS r theta theta2
        = some T
      ∧ T.translation = ![0, r * Real.cos theta, r * Real.sin theta]
      ∧ T.translation 0 = 0
      ∧ Real.sqrt (T.translation 0 ^ 2 + T.translation 1 ^ 2 + T.translation 2 ^ 2) = |r|) := by
  have hr : ∀ a b c : ℝ, a ^ 2 + b ^ 2 + c ^ 2 = r ^ 2 → Real.sqrt (a ^ 2 + b ^ 2 + c ^ 2) = |r| := by
    intro a b c h
    rw [h, Real.sqrt_sq_eq_abs]
  have hcs := Real.cos_sq_add_sin_sq theta
  refine ⟨⟨_, localGraspPose_Y_AXIS r theta theta2, rfl, rfl, hr _ _ _ ?_⟩,
    ⟨_, localGraspPose_X_AXIS r theta theta2, rfl, rfl, hr _ _ _ ?_⟩⟩
  · simp only [Matrix.cons_val_zero, Matrix.cons_val_one, Matrix.head_cons, Matrix.cons_val_two,
      Matrix.tail_cons]
    linear_combination r ^ 2 * hcs
  · simp only [Matrix.cons_val_zero, Matrix.cons_val_one, Matrix.head_cons, Matrix.cons_val_two,
      Matrix.tail_cons]
    linear_combination r ^ 2 * hcs

/-! ## Shape of the quality along a pass (C12) -/

/-- C12: for every `R = angle_resolution_ ≥ 1`, along the candidates `i = 0..R` of one pass
over a supported axis the quality is non-decreasing while `θᵢ ≤ π / 2` and non-increasing
while `θᵢ ≥ π / 2`; it never exceeds `1.0`, and a candidate has the quality `1.0` exactly
when its angle is `π / 2`, the single peak (over the reals).  With an odd `R` no sample
angle is `π / 2` and no candidate reaches `1.0`. -/
theorem quality_unimodal (bgt : Affine3d ℝ) (st : GenState ℝ) (axis : grasp_axis_t)
    (direction : grasp_direction_t) (gd : RobotGraspData ℝ)
    (hax : axis = X_AXIS ∨ axis = Y_AXIS) (hR : 1 ≤ gd.angle_resolution_) :
    (∀ i j : Nat, i ≤ j → (j : Int) ≤ gd.angle_resolution_ →
      ∃ gi gj : Grasp ℝ,
        (newGrasps st (generateAxisGrasps (Libm.mk Real.sin Real.cos Real.sqrt Real.pi toFloat32) bgt
          st axis direction gd))[i]? = some gi
        ∧ (newGrasps st (generateAxisGrasps (Libm.mk Real.sin Real.cos Real.sqrt Real.pi toFloat32) bgt
          st axis direction gd))[j]? = some gj
        ∧ (theta1_at (Libm.mk Real.sin Real.cos Real.sqrt Real.pi toFloat32) gd j ≤ Real.pi / 2 →
            gi.grasp_quality ≤ gj.grasp_quality)
        ∧ (Real.pi / 2 ≤ theta1_at (Libm.mk Real.sin Real.cos Real.sqrt Real.pi toFloat32) gd i →
            gj.grasp_quality ≤ gi.grasp_quality))
    ∧ (∀ i : Nat, (i : Int) ≤ gd.angle_resolution_ →
      ∃ g : Grasp ℝ,
        (newGrasps st (generateAxisGrasps (Libm.mk Real.sin Real.cos Real.sqrt Real.pi toFloat32) bgt
          st axis direction gd))[i]? = some g
        ∧ g.grasp_quality ≤ 1.0
        ∧ (g.grasp_quality = 1.0
            ↔ theta1_at (Libm.mk Real.sin Real.cos Real.sqrt Real.pi toFloat32) gd i = Real.pi / 2)) := by
  constructor
  · intro i j hij hj
    have hi : (i : Int) ≤ gd.angle_resolution_ := by omega
    have hmono := theta1_at_mono gd hR i j hij
    have hbi := theta1_at_bounds gd hR i hi
    have hbj := theta1_at_bounds gd hR j hj
    refine ⟨_, _, newGrasps_getElem? _ bgt st axis direction gd hax i hi,
      newGrasps_getElem? _ bgt st axis direction gd hax j hj, ?_, ?_⟩
    · intro hle
      simp only [newGrasp, std_max_eq_max]
      exact max_le_max (sin_le_sin_left _ _ hbi.1 hmono hle) le_rfl
    · intro hge
      simp only [newGrasp, std_max_eq_max]
      exact max_le_max (sin_le_sin_right _ _ hge hmono hbj.2) le_rfl
  · intro i hi
    have hbi := theta1_at_bounds gd hR i hi
    refine ⟨_, newGrasps_getElem? _ bgt st axis direction gd hax i hi, ?_, ?_⟩
    · simp only [newGrasp, std_max_eq_max]
      exact max_le ((Real.sin_le_one _).trans (by norm_num)) (by norm_num)
    · simp only [newGrasp, std_max_eq_max]
      rw [max_floor_eq_one_iff]
      exact sin_eq_one_iff_half_pi _ hbi.1 hbi.2

/-- C12, at resolution 4 over `Y_AXIS`, `DOWN`: the candidates 1 and 2. -/
theorem quality_unimodal_witness :
    ∃ gi gj : Grasp ℝ,
      (newGrasps ⟨[], 0⟩ (generateAxisGrasps (Libm.mk Real.sin Real.cos Real.sqrt Real.pi toFloat32)
        (poseMsgToEigen identityPose) ⟨[], 0⟩ Y_AXIS DOWN (exampleGraspData 4)))[1]? = some gi
      ∧ (newGrasps ⟨[], 0⟩ (generateAxisGrasps (Libm.mk Real.sin Real.cos Real.sqrt Real.pi toFloat32)
        (poseMsgToEigen identityPose) ⟨[], 0⟩ Y_AXIS DOWN (exampleGraspData 4)))[2]? = some gj
      ∧ (theta1_at (Libm.mk Real.sin Real.cos Real.sqrt Real.pi toFloat32)
            (exampleGraspData 4 : RobotGraspData ℝ) 2 ≤ Real.pi / 2 →
          gi.grasp_quality ≤ gj.grasp_quality)
      ∧ (Real.pi / 2 ≤ theta1_at (Libm.mk Real.sin Real.cos Real.sqrt Real.pi toFloat32)
            (exampleGraspData 4 : RobotGraspData ℝ) 1 →
          gj.grasp_quality ≤ gi.grasp_quality) :=
  (quality_unimodal (poseMsgToEigen identityPose) ⟨[], 0⟩ Y_AXIS DOWN (exampleGraspData 4)
    (Or.inr rfl) (by decide)).1 1 2 (by decide) (by decide)

/-! ## Scenario: identity pose, resolution 4 (C13) -/

/-- C13: with the block pose the identity at the origin, `grasp_depth_ = 0.12` and
`angle_resolution_ = 4`, `generateGrasps` (one pass over `Y_AXIS`, `DOWN`) yields exactly 5
candidates, built in this order from the angles `0, π/4, π/2, 3π/4, π`, with the qualities
`0.1, √2/2, 1.0, √2/2, 0.1` (over the reals). -/
theorem scenario_resolution_four :
    (exampleGraspData 4 : RobotGraspData ℝ).grasp_depth_ = 0.12
    ∧ (generateGrasps (Libm.mk Real.sin Real.cos Real.sqrt Real.pi toFloat32) identityPose
        (exampleGraspData 4) ⟨[], 0⟩).2.possible_grasps
      = (List.range 5).map (fun i =>
          newGrasp (Libm.mk Real.sin Real.cos Real.sqrt Real.pi toFloat32) (poseMsgToEigen identityPose)
            (exampleGraspData 4)
            (localPose (Libm.mk Real.sin Real.cos Real.sqrt Real.pi toFloat32) Y_AXIS 0.12
              (theta1_at (Libm.mk Real.sin Real.cos Real.sqrt Real.pi toFloat32) (exampleGraspData 4) i)
              (flipAngle (Libm.mk Real.sin Real.cos Real.sqrt Real.pi toFloat32) DOWN))
            (theta1_at (Libm.mk Real.sin Real.cos Real.sqrt Real.pi toFloat32) (exampleGraspData 4) i)
            (i : Int))
    ∧ (generateGrasps (Libm.mk Real.sin Real.cos Real.sqrt Real.pi toFloat32) identityPose
        (exampleGraspData 4) ⟨[], 0⟩).2.possible_grasps.length = 5
    ∧ (List.range 5).map
        (theta1_at (Libm.mk Real.sin Real.cos Real.sqrt Real.pi toFloat32) (exampleGraspData 4))
      = [0, Real.pi / 4, Real.pi / 2, 3 * Real.pi / 4, Real.pi]
    ∧ (generateGrasps (Libm.mk Real.sin Real.cos Real.sqrt Real.pi toFloat32) identityPose
        (exampleGraspData 4) ⟨[], 0⟩).2.possible_grasps.map Grasp.grasp_quality
      = [0.1, Real.sqrt 2 / 2, 1.0, Real.sqrt 2 / 2, 0.1] := by
  have hR : ((exampleGraspData 4 : RobotGraspData ℝ).angle_resolution_ + 1).toNat = 5 := by
    decide
  have hlist : (generateGrasps (Libm.mk Real.sin Real.cos Real.sqrt Real.pi toFloat32) identityPose
        (exampleGraspData 4) ⟨[], 0⟩).2.possible_grasps
      = (List.range 5).map (fun i =>
          newGrasp (Libm.mk Real.sin Real.cos Real.sqrt Real.pi toFloat32) (poseMsgToEigen identityPose)
            (exampleGraspData 4)
            (localPose (Libm.mk Real.sin Real.cos Real.sqrt Real.pi toFloat32) Y_AXIS 0.12
              (theta1_at (Libm.mk Real.sin Real.cos Real.sqrt Real.pi toFloat32) (exampleGraspData 4) i)
              (flipAngle (Libm.mk Real.sin Real.cos Real.sqrt Real.pi toFloat32) DOWN))
            (theta1_at (Libm.mk Real.sin Real.cos Real.sqrt Real.pi toFloat32) (exampleGraspData 4) i)
            (i : Int)) := by
    rw [generateGrasps_eq, hR]
    simp only [List.nil_append]
    apply List.map_congr_left
    intro j _
    rw [passGrasp_eq]
    simp [flipAngle, exampleGraspData]
  have ht : ∀ i : Nat,
      theta1_at (Libm.mk Real.sin Real.cos Real.sqrt Real.pi toFloat32) (exampleGraspData 4) i
        = (i : ℝ) * (Real.pi / 4) := by
    intro i
    rw [theta1_at_real]
    simp [exampleGraspData]
  have h0 : Real.sin (((0 : Nat) : ℝ) * (Real.pi / 4)) = 0 := by simp
  have h1 : Real.sin (((1 : Nat) : ℝ) * (Real.pi / 4)) = Real.sqrt 2 / 2 := by
    simp [Real.sin_pi_div_four]
  have h2 : Real.sin (((2 : Nat) : ℝ) * (Real.pi / 4)) = 1 := by
    have e : ((2 : Nat) : ℝ) * (Real.pi / 4) = Real.pi / 2 := by push_cast; ring
    rw [e, Real.sin_pi_div_two]
  have h3 : Real.sin (((3 : Nat) : ℝ) * (Real.pi / 4)) = Real.sqrt 2 / 2 := by
    have e : ((3 : Nat) : ℝ) * (Real.pi / 4) = Real.pi - Real.pi / 4 := by push_cast; ring
    rw [e, Real.sin_pi_sub, Real.sin_pi_div_four]
  have h4 : Real.sin (((4 : Nat) : ℝ) * (Real.pi / 4)) = 0 := by
    have e : ((4 : Nat) : ℝ) * (Real.pi / 4) = Real.pi := by push_cast; ring
    rw [e, Real.sin_pi]
  have hs : (0.1 : ℝ) ≤ Real.sqrt 2 / 2 := by
    have : (1 : ℝ) ≤ Real.sqrt 2 := by
      rw [Real.one_le_sqrt]
      norm_num
    linarith
  refine ⟨rfl, hlist, by rw [hlist]; simp, ?_, ?_⟩
  · simp only [List.range_succ, List.range_zero, List.nil_append, List.cons_append,
      List.map_cons, List.map_nil, ht]
    push_cast
    simp only [List.cons.injEq, and_true]
    refine ⟨by ring, by ring, by ring, by ring, by ring⟩
  · rw [hlist]
    simp only [List.range_succ, List.range_zero, List.nil_append, List.cons_append,
      List.map_cons, List.map_nil, newGrasp, std_max_eq_max, ht, h0, h1, h2, h3, h4]
    simp only [List.cons.injEq, and_true]
    refine ⟨by norm_num, max_eq_left hs, by norm_num, max_eq_left hs, by norm_num⟩

/-! ## Scenario: translated block, resolution 1 (C14) -/

/-- C14: with the block at `(1, 2, 3)` with the identity rotation, `grasp_depth_ = 0.1` and
`angle_resolution_ = 1`, `generateGrasps` yields exactly 2 candidates; the local sampled
points are `(0.1, 0, 0)` and `(-0.1, 0, 0)`, and the world position of each candidate is
`(1, 2, 3) + pᵢ + Rᵢ * t_eef`, with `pᵢ` the local sampled point, `Rᵢ` the local sampled
orientation and `t_eef` the translation of `grasp_pose_to_eef_pose_` (over the reals). -/
theorem scenario_translated_block (gd : RobotGraspData ℝ) (st : GenState ℝ)
    (hd : gd.grasp_depth_ = 0.1) (hR : gd.angle_resolution_ = 1) :
    ∃ (g0 g1 : Grasp ℝ) (T0 T1 : Affine3d ℝ),
      newGrasps st (generateGrasps (Libm.mk Real.sin Real.cos Real.sqrt Real.pi toFloat32)
        translatedPose gd st) = [g0, g1]
      ∧ localGraspPose (Libm.mk Real.sin Real.cos Real.sqrt Real.pi toFloat32) Y_AXIS gd.grasp_depth_
          (theta1_at (Libm.mk Real.sin Real.cos Real.sqrt Real.pi toFloat32) gd 0)
          (flipAngle (Libm.mk Real.sin Real.cos Real.sqrt Real.pi toFloat32) DOWN) = some T0
      ∧ localGraspPose (Libm.mk Real.sin Real.cos Real.sqrt Real.pi toFloat32) Y_AXIS gd.grasp_depth_
          (theta1_at (Libm.mk Real.sin Real.cos Real.sqrt Real.pi toFloat32) gd 1)
          (flipAngle (Libm.mk Real.sin Real.cos Real.sqrt Real.pi toFloat32) DOWN) = some T1
      ∧ T0.translation = ![0.1, 0, 0]
      ∧ T1.translation = ![-0.1, 0, 0]
      ∧ ![g0.grasp_pose.pose.position.x, g0.grasp_pose.pose.position.y,
            g0.grasp_pose.pose.position.z]
          = ![1, 2, 3] + T0.translation
            + T0.linear.mulVec ![gd.grasp_pose_to_eef_pose_.position.x,
                gd.grasp_pose_to_eef_pose_.position.y, gd.grasp_pose_to_eef_pose_.position.z]
      ∧ ![g1.grasp_pose.pose.position.x, g1.grasp_pose.pose.position.y,
            g1.grasp_pose.pose.position.z]
          = ![1, 2, 3] + T1.translation
            + T1.linear.mulVec ![gd.grasp_pose_to_eef_pose_.position.x,
                gd.grasp_pose_to_eef_pose_.position.y,
                gd.grasp_pose_to_eef_pose_.position.z] := by
  have hn : (gd.angle_resolution_ + 1).toNat = 2 := by rw [hR]; decide
  have hpos : ∀ (T : Affine3d ℝ) (theta1 : ℝ) (k : Int),
      ![(newGrasp (Libm.mk Real.sin Real.cos Real.sqrt Real.pi toFloat32) (poseMsgToEigen translatedPose)
            gd T theta1 k).grasp_pose.pose.position.x,
          (newGrasp (Libm.mk Real.sin Real.cos Real.sqrt Real.pi toFloat32) (poseMsgToEigen translatedPose)
            gd T theta1 k).grasp_pose.pose.position.y,
          (newGrasp (Libm.mk Real.sin Real.cos Real.sqrt Real.pi toFloat32) (poseMsgToEigen translatedPose)
            gd T theta1 k).grasp_pose.pose.position.z]
        = ![1, 2, 3] + T.translation
          + T.linear.mulVec ![gd.grasp_pose_to_eef_pose_.position.x,
              gd.grasp_pose_to_eef_pose_.position.y,
              gd.grasp_pose_to_eef_pose_.position.z] := by
    intro T theta1 k
    have e : (poseMsgToEigen (translatedPose : Pose ℝ)
          * (T * poseMsgToEigen gd.grasp_pose_to_eef_pose_)).translation
        = ![1, 2, 3] + T.translation
          + T.linear.mulVec ![gd.grasp_pose_to_eef_pose_.position.x,
              gd.grasp_pose_to_eef_pose_.position.y,
              gd.grasp_pose_to_eef_pose_.position.z] := by
      rw [mul_translation, mul_translation, poseMsgToEigen_translatedPose]
      simp only [poseMsgToEigen, Matrix.one_mulVec]
      abel
    rw [newGrasp_position]
    exact (vec3_eta _).trans e
  have ht0 : theta1_at (Libm.mk Real.sin Real.cos Real.sqrt Real.pi toFloat32) gd 0 = 0 := by
    rw [theta1_at_real]
    simp
  have ht1 : theta1_at (Libm.mk Real.sin Real.cos Real.sqrt Real.pi toFloat32) gd 1 = Real.pi := by
    rw [theta1_at_real, hR]
    simp
  refine ⟨_, _, _, _, ?_, localGraspPose_eq_some _ Y_AXIS _ _ _ (by decide),
    localGraspPose_eq_some _ Y_AXIS _ _ _ (by decide), ?_, ?_,
    hpos _ (theta1_at (Libm.mk Real.sin Real.cos Real.sqrt Real.pi toFloat32) gd 0) (st.grasp_id + 0),
    hpos _ (theta1_at (Libm.mk Real.sin Real.cos Real.sqrt Real.pi toFloat32) gd 1) (st.grasp_id + 1)⟩
  · rw [newGrasps_generateGrasps, hn]
    simp only [List.range_succ, List.range_zero, List.nil_append, List.cons_append,
      List.map_cons, List.map_nil, passGrasp_eq, flipAngle, if_true, Nat.cast_zero,
      Nat.cast_one]
  · rw [localPose_Y_AXIS, ht0, hd]
    simp
  · rw [localPose_Y_AXIS, ht1, hd]
    simp
/-- C14, with the correction `examplePose` (`scenarioGraspData`): two candidates. -/
theorem scenario_translated_block_witness :
    ∃ g0 g1 : Grasp ℝ,
      newGrasps ⟨[], 0⟩ (generateGrasps (Libm.mk Real.sin Real.cos Real.sqrt Real.pi toFloat32)
        translatedPose scenarioGraspData ⟨[], 0⟩) = [g0, g1] :=
  let ⟨g0, g1, _, _, h, _⟩ :=
    scenario_translated_block scenarioGraspData ⟨[], 0⟩ rfl rfl
  ⟨g0, g1, h⟩

/-! ## Ids over a process run (C15) -/

/-- C15: for any sequence of `generateGrasps` / `generateAxisGrasps` calls in one process,
entered with the id counter at `k` (`0` at the start of the process), the `n` candidates
produced over all the calls have, in the order of their production, the ids `"Grasp"`
followed by the decimal numerals of `k, k + 1, ..., k + n - 1`: the ids are sequential and
pairwise distinct, and the counter goes on from one call to the next (it is `k + n` at the
end) and never restarts.  This holds for every scalar type and math library. -/
theorem ids_unique_in_process {α : Type} [LinearOrderedField α] (m : Libm α)
    (s : Generator α) (calls : List (Call α)) :
    ((Generator.run m s calls).2.map Grasp.id
        = (List.range (Generator.run m s calls).2.length).map
            (fun i : Nat => "Grasp" ++ lexical_cast (s.grasp_id + (i : Int))))
    ∧ ((Generator.run m s calls).2.map Grasp.id).Nodup
    ∧ (Generator.run m s calls).1.grasp_id
        = s.grasp_id + ((Generator.run m s calls).2.length : Int) := by
  obtain ⟨h1, h2⟩ := run_ids m calls s
  refine ⟨h1, ?_, h2⟩
  rw [h1]
  exact (List.nodup_range _).map (grasp_id_injective s.grasp_id)

/-! ## A correction pose that is not rigid (C16) -/

/-- C16, counterexample: with the correction pose `stretchedPose`, whose quaternion has the
norm 2, `generateGrasps` at resolution 1 returns `true` and leaves 2 candidates in the
vector. -/
theorem generateGrasps_nonrigid_correction_accepted :
    ¬ (stretchedPose : Pose ℝ).IsRigid
    ∧ (generateGrasps (Libm.mk Real.sin Real.cos Real.sqrt Real.pi toFloat32) identityPose
        { exampleGraspData 1 with grasp_pose_to_eef_pose_ := stretchedPose } ⟨[], 0⟩).1 = true
    ∧ (generateGrasps (Libm.mk Real.sin Real.cos Real.sqrt Real.pi toFloat32) identityPose
        { exampleGraspData 1 with grasp_pose_to_eef_pose_ := stretchedPose }
        ⟨[], 0⟩).2.possible_grasps.length = 2 := by
  refine ⟨?_, by rw [generateGrasps_eq], ?_⟩
  · simp only [Pose.IsRigid, Pose.rotation, Quaterniond.normSq, stretchedPose]
    norm_num
  · rw [generateGrasps_eq]
    simp [exampleGraspData]

/-- C16, as amended: the generator makes no check of `grasp_pose_to_eef_pose_`: for every
correction pose `e`, a rigid transform or not, `generateGrasps` returns `true` and appends
`angle_resolution_ + 1` candidates (none when that number is negative), as it does for
every other correction pose. -/
theorem generateGrasps_any_correction {α : Type} [LinearOrderedField α] (m : Libm α)
    (block_pose : Pose α) (gd : RobotGraspData α) (e : Pose α) (st : GenState α) :
    (generateGrasps m block_pose { gd with grasp_pose_to_eef_pose_ := e } st).1 = true
    ∧ (newGrasps st
        (generateGrasps m block_pose { gd with grasp_pose_to_eef_pose_ := e } st)).length
        = (gd.angle_resolution_ + 1).toNat
    ∧ (newGrasps st
        (generateGrasps m block_pose { gd with grasp_pose_to_eef_pose_ := e } st)).length
        = (newGrasps st (generateGrasps m block_pose gd st)).length := by
  refine ⟨by rw [generateGrasps_eq], ?_, ?_⟩
  · rw [newGrasps_generateGrasps]
    simp
  · rw [newGrasps_generateGrasps, newGrasps_generateGrasps]
    simp

/-! ## Postures and contact force (C17) -/

/-- C17: for every candidate appended by `generateAxisGrasps`, `pre_grasp_posture` is the
`pre_grasp_posture_` of the configuration and `grasp_posture` its `grasp_posture_`,
whatever they hold, and `max_contact_force` is `0`.  This holds for every scalar type and
math library. -/
theorem postures_passed_through {α : Type} [LinearOrderedField α] (m : Libm α)
    (bgt : Affine3d α) (st : GenState α) (axis : grasp_axis_t)
    (direction : grasp_direction_t) (gd : RobotGraspData α) :
    ∀ g ∈ newGrasps st (generateAxisGrasps m bgt st axis direction gd),
      g.pre_grasp_posture = gd.pre_grasp_posture_
      ∧ g.grasp_posture = gd.grasp_posture_
      ∧ g.max_contact_force = 0 := by
  intro g hg
  obtain ⟨j, _, rfl⟩ := mem_newGrasps m bgt st axis direction gd g hg
  simp [passGrasp, newGrasp]

/-- C17, with the postures of `gripperGraspData`: the candidate 1 of the pass over
`Y_AXIS`, `DOWN` at resolution 4. -/
theorem postures_passed_through_witness :
    ∃ g : Grasp ℝ,
      g ∈ newGrasps ⟨[], 0⟩ (generateAxisGrasps (Libm.mk Real.sin Real.cos Real.sqrt Real.pi toFloat32)
        (poseMsgToEigen identityPose) ⟨[], 0⟩ Y_AXIS DOWN (gripperGraspData 4))
      ∧ g.pre_grasp_posture = (gripperGraspData 4 : RobotGraspData ℝ).pre_grasp_posture_
      ∧ g.grasp_posture = (gripperGraspData 4 : RobotGraspData ℝ).grasp_posture_
      ∧ g.max_contact_force = 0 :=
  ⟨_, passGrasp_mem_newGrasps _ _ _ Y_AXIS DOWN (gripperGraspData 4) (by decide) 1 (by decide),
    postures_passed_through (Libm.mk Real.sin Real.cos Real.sqrt Real.pi toFloat32)
      (poseMsgToEigen identityPose) ⟨[], 0⟩ Y_AXIS DOWN (gripperGraspData 4) _
      (passGrasp_mem_newGrasps _ _ _ Y_AXIS DOWN (gripperGraspData 4) (by decide) 1
        (by decide))⟩

/-! ## The lower end of the quality range (C18) -/

/-- C18, counterexample: at resolution 4 the first candidate of the pass over `Y_AXIS`,
`DOWN`, sampled at the angle `0`, has the quality `0.1` exactly, which is not above
`0.1`. -/
theorem grasp_quality_floor_attained :
    ∃ g : Grasp ℝ,
      g ∈ newGrasps ⟨[], 0⟩ (generateAxisGrasps (Libm.mk Real.sin Real.cos Real.sqrt Real.pi toFloat32)
        (poseMsgToEigen identityPose) ⟨[], 0⟩ Y_AXIS DOWN (exampleGraspData 4))
      ∧ ¬ ((0.1 : ℝ) < g.grasp_quality) := by
  refine ⟨_, passGrasp_mem_newGrasps _ _ _ Y_AXIS DOWN (exampleGraspData 4) (by decide) 0
    (by decide), ?_⟩
  simp only [passGrasp, newGrasp, std_max_eq_max]
  norm_num

/-- C18, as amended: for every configuration with `angle_resolution_ = R ≥ 1`, every
candidate of a pass over a supported axis has a quality `q` in the closed range
`0.1 ≤ q ≤ 1.0`, and the lower end is attained: the first candidate (angle `0`) and the
last one (angle `π`) have the quality `0.1` exactly (over the reals). -/
theorem grasp_quality_closed_range (bgt : Affine3d ℝ) (st : GenState ℝ) (axis : grasp_axis_t)
    (direction : grasp_direction_t) (gd : RobotGraspData ℝ)
    (hax : axis = X_AXIS ∨ axis = Y_AXIS) (hR : 1 ≤ gd.angle_resolution_) :
    (∀ i : Nat, (i : Int) ≤ gd.angle_resolution_ →
      ∃ g : Grasp ℝ,
        (newGrasps st (generateAxisGrasps (Libm.mk Real.sin Real.cos Real.sqrt Real.pi toFloat32) bgt
          st axis direction gd))[i]? = some g
        ∧ 0.1 ≤ g.grasp_quality ∧ g.grasp_quality ≤ 1.0)
    ∧ (∃ g : Grasp ℝ,
        (newGrasps st (generateAxisGrasps (Libm.mk Real.sin Real.cos Real.sqrt Real.pi toFloat32) bgt
          st axis direction gd))[0]? = some g
        ∧ g.grasp_quality = 0.1)
    ∧ (∃ g : Grasp ℝ,
        (newGrasps st (generateAxisGrasps (Libm.mk Real.sin Real.cos Real.sqrt Real.pi toFloat32) bgt
          st axis direction gd))[gd.angle_resolution_.toNat]? = some g
        ∧ g.grasp_quality = 0.1) := by
  have hlast : ((gd.angle_resolution_.toNat : Nat) : Int) = gd.angle_resolution_ :=
    Int.toNat_of_nonneg (by omega)
  have hcast : ((gd.angle_resolution_.toNat : Nat) : ℝ) = (gd.angle_resolution_ : ℝ) := by
    exact_mod_cast congrArg (Int.cast : Int → ℝ) hlast
  have hne : (gd.angle_resolution_ : ℝ) ≠ 0 := by
    have : (0 : Int) < gd.angle_resolution_ := by omega
    exact_mod_cast this.ne'
  refine ⟨fun i hi => ⟨_, newGrasps_getElem? _ bgt st axis direction gd hax i hi, ?_, ?_⟩,
    ⟨_, newGrasps_getElem? _ bgt st axis direction gd hax 0 (by omega), ?_⟩,
    ⟨_, newGrasps_getElem? _ bgt st axis direction gd hax _ (by omega), ?_⟩⟩
  · simp only [newGrasp, std_max_eq_max]
    exact le_max_right _ _
  · simp only [newGrasp, std_max_eq_max]
    exact max_le ((Real.sin_le_one _).trans (by norm_num)) (by norm_num)
  · simp only [newGrasp, std_max_eq_max, theta1_at_real]
    norm_num
  · simp only [newGrasp, std_max_eq_max, theta1_at_real, hcast]
    rw [mul_div_cancel₀ _ hne, Real.sin_pi]
    norm_num

/-- C18 as amended, at resolution 4 over `X_AXIS`, `UP`: the first candidate. -/
theorem grasp_quality_closed_range_witness :
    ∃ g : Grasp ℝ,
      (newGrasps ⟨[], 0⟩ (generateAxisGrasps (Libm.mk Real.sin Real.cos Real.sqrt Real.pi toFloat32)
        (poseMsgToEigen identityPose) ⟨[], 0⟩ X_AXIS UP (exampleGraspData 4)))[0]? = some g
      ∧ g.grasp_quality = 0.1 :=
  (grasp_quality_closed_range (poseMsgToEigen identityPose) ⟨[], 0⟩ X_AXIS UP
    (exampleGraspData 4) (Or.inl rfl) (by decide)).2.1

/-! ## The direction flag (C19) -/

/-- C19: the flip angle is `π` for `DOWN` and `0` for `UP`, and for the same axis
(`X_AXIS` or `Y_AXIS`), sample angle and radius, the local grasp pose for `DOWN` is the
pose for `UP` composed on the right with the rotation by `π` about the x axis; the two
poses have the same position and the same x axis (first column of the rotation matrix) and
opposite y and z axes (second and third columns). -/
theorem direction_flip (axis : grasp_axis_t) (hax : axis = X_AXIS ∨ axis = Y_AXIS)
    (r theta : ℝ) :
    flipAngle (Libm.mk Real.sin Real.cos Real.sqrt Real.pi toFloat32) DOWN = Real.pi
    ∧ flipAngle (Libm.mk Real.sin Real.cos Real.sqrt Real.pi toFloat32) UP = 0
    ∧ ∃ T_up T_down : Affine3d ℝ,
        localGraspPose (Libm.mk Real.sin Real.cos Real.sqrt Real.pi toFloat32) axis r theta
          (flipAngle (Libm.mk Real.sin Real.cos Real.sqrt Real.pi toFloat32) UP) = some T_up
        ∧ localGraspPose (Libm.mk Real.sin Real.cos Real.sqrt Real.pi toFloat32) axis r theta
          (flipAngle (Libm.mk Real.sin Real.cos Real.sqrt Real.pi toFloat32) DOWN) = some T_down
        ∧ T_down = T_up * Affine3d.ofQuaternion ((AngleAxisd.mk Real.pi UnitX).toQuaternion
            (Libm.mk Real.sin Real.cos Real.sqrt Real.pi toFloat32))
        ∧ T_down.translation = T_up.translation
        ∧ (∀ i, T_down.linear i 0 = T_up.linear i 0)
        ∧ (∀ i, T_down.linear i 1 = - T_up.linear i 1)
        ∧ (∀ i, T_down.linear i 2 = - T_up.linear i 2) := by
  have hd : flipAngle (Libm.mk Real.sin Real.cos Real.sqrt Real.pi toFloat32) DOWN = Real.pi := by
    simp [flipAngle]
  have hu : flipAngle (Libm.mk Real.sin Real.cos Real.sqrt Real.pi toFloat32) UP = 0 := by
    unfold flipAngle
    rw [if_neg (by decide)]
    norm_num
  have hcol : ∀ A : Matrix (Fin 3) (Fin 3) ℝ,
      (∀ i, (A * rotX (Libm.mk Real.sin Real.cos Real.sqrt Real.pi toFloat32) Real.pi) i 0 = A i 0)
      ∧ (∀ i, (A * rotX (Libm.mk Real.sin Real.cos Real.sqrt Real.pi toFloat32) Real.pi) i 1 = - A i 1)
      ∧ (∀ i, (A * rotX (Libm.mk Real.sin Real.cos Real.sqrt Real.pi toFloat32) Real.pi) i 2
          = - A i 2) := by
    intro A
    rw [rotX_pi]
    refine ⟨fun i => ?_, fun i => ?_, fun i => ?_⟩ <;>
      simp [Matrix.mul_apply, Fin.sum_univ_three, Matrix.vecHead, Matrix.vecTail]
  have hcomp : ∀ (A : Matrix (Fin 3) (Fin 3) ℝ) (t : Fin 3 → ℝ),
      (Affine3d.mk (A * rotX (Libm.mk Real.sin Real.cos Real.sqrt Real.pi toFloat32) Real.pi) t)
        = Affine3d.mk (A * rotX (Libm.mk Real.sin Real.cos Real.sqrt Real.pi toFloat32) 0) t
          * Affine3d.ofQuaternion ((AngleAxisd.mk Real.pi UnitX).toQuaternion
              (Libm.mk Real.sin Real.cos Real.sqrt Real.pi toFloat32)) := by
    intro A t
    show _ = Affine3d.mul _ _
    simp only [Affine3d.mul, Affine3d.ofQuaternion, toRotationMatrix_UnitX, rotX_zero,
      Matrix.mul_one, Affine3d.mk.injEq, true_and]
    have h0 : (![0, 0, 0] : Fin 3 → ℝ) = 0 := by
      funext i
      fin_cases i <;> rfl
    rw [h0, Matrix.mulVec_zero, zero_add]
  rw [hd, hu]
  refine ⟨rfl, rfl, ?_⟩
  rcases hax with h | h
  · subst h
    refine ⟨_, _, localGraspPose_X_AXIS r theta 0, localGraspPose_X_AXIS r theta Real.pi,
      hcomp _ _, rfl, ?_, ?_, ?_⟩
    · intro i
      simp only [rotX_zero, Matrix.mul_one]
      exact (hcol _).1 i
    · intro i
      simp only [rotX_zero, Matrix.mul_one]
      exact (hcol _).2.1 i
    · intro i
      simp only [rotX_zero, Matrix.mul_one]
      exact (hcol _).2.2 i
  · subst h
    refine ⟨_, _, localGraspPose_Y_AXIS r theta 0, localGraspPose_Y_AXIS r theta Real.pi,
      hcomp _ _, rfl, ?_, ?_, ?_⟩
    · intro i
      simp only [rotX_zero, Matrix.mul_one]
      exact (hcol _).1 i
    · intro i
      simp only [rotX_zero, Matrix.mul_one]
      exact (hcol _).2.1 i
    · intro i
      simp only [rotX_zero, Matrix.mul_one]
      exact (hcol _).2.2 i

/-- C19, over `X_AXIS` at radius 1 and angle 0. -/
theorem direction_flip_witness :
    ∃ T_up T_down : Affine3d ℝ,
      localGraspPose (Libm.mk Real.sin Real.cos Real.sqrt Real.pi toFloat32) X_AXIS 1 0
        (flipAngle (Libm.mk Real.sin Real.cos Real.sqrt Real.pi toFloat32) UP) = some T_up
      ∧ localGraspPose (Libm.mk Real.sin Real.cos Real.sqrt Real.pi toFloat32) X_AXIS 1 0
        (flipAngle (Libm.mk Real.sin Real.cos Real.sqrt Real.pi toFloat32) DOWN) = some T_down
      ∧ T_down = T_up * Affine3d.ofQuaternion ((AngleAxisd.mk Real.pi UnitX).toQuaternion
          (Libm.mk Real.sin Real.cos Real.sqrt Real.pi toFloat32)) :=
  let ⟨u, d, h1, h2, h3, _⟩ := (direction_flip X_AXIS (Or.inl rfl) 1 0).2.2
  ⟨u, d, h1, h2, h3⟩

/-! ## The x axis of the gripper (C20) -/

/-- C20: for `X_AXIS` and `Y_AXIS`, every sample angle `θ`, radius `r` and flip angle (so
for both directions), the x axis of the local grasp orientation, the first column of its
rotation matrix, is `(-cos θ, 0, -sin θ)` for `Y_AXIS` and `(0, -cos θ, -sin θ)` for
`X_AXIS`, and the translation is `-r` times it: the x axis points from the sampled point
straight at the block centre. -/
theorem x_axis_towards_centre (r theta theta2 : ℝ) :
    (∃ T : Affine3d ℝ,
      localGraspPose (Libm.mk Real.sin Real.cos Real.sqrt Real.pi toFloat32) Y_AXIS r theta theta2
        = some T
      ∧ (fun i => T.linear i 0) = ![-Real.cos theta, 0, -Real.sin theta]
      ∧ ∀ i, T.translation i = -r * T.linear i 0)
    ∧ (∃ T : Affine3d ℝ,
      localGraspPose (Libm.mk Real.sin Real.cos Real.sqrt Real.pi toFloat32) X_AXIS r theta theta2
        = some T
      ∧ (fun i => T.linear i 0) = ![0, -Real.cos theta, -Real.sin theta]
      ∧ ∀ i, T.translation i = -r * T.linear i 0) := by
  refine ⟨⟨_, localGraspPose_Y_AXIS r theta theta2, ?_, ?_⟩,
    ⟨_, localGraspPose_X_AXIS r theta theta2, ?_, ?_⟩⟩
  · funext i
    fin_cases i <;>
      simp [rotY, rotX, Matrix.mul_apply, Fin.sum_univ_three, Real.cos_pi_sub,
        Real.sin_pi_sub, Matrix.vecHead, Matrix.vecTail]
  · intro i
    fin_cases i <;>
      simp [rotY, rotX, Matrix.mul_apply, Fin.sum_univ_three, Real.cos_pi_sub,
        Real.sin_pi_sub, Matrix.vecHead, Matrix.vecTail]
  · funext i
    rw [rotZ_neg_half_pi]
    fin_cases i <;>
      simp [rotX, Matrix.mul_apply, Fin.sum_univ_three, Matrix.vecHead, Matrix.vecTail]
  · intro i
    rw [rotZ_neg_half_pi]
    fin_cases i <;>
      simp [rotX, Matrix.mul_apply, Fin.sum_univ_three, Matrix.vecHead, Matrix.vecTail]

/-! ## Appending only (C21) -/

/-- C21: `generateAxisGrasps` and `generateGrasps` only append to the output vector: for
every prior content `L` of `possible_grasps` and every axis, direction and configuration,
the vector after the call is `L`, element for element unchanged, followed by the newly
generated candidates; so `generateGrasps` on a vector of length `n` with
`angle_resolution_ = R ≥ 1` ends with `n + R + 1` entries.  This holds for every scalar
type and math library. -/
theorem only_appends {α : Type} [LinearOrderedField α] (m : Libm α) (bgt : Affine3d α)
    (block_pose : Pose α) (st : GenState α) (axis : grasp_axis_t)
    (direction : grasp_direction_t) (gd : RobotGraspData α) :
    (generateAxisGrasps m bgt st axis direction gd).2.possible_grasps
        = st.possible_grasps ++ newGrasps st (generateAxisGrasps m bgt st axis direction gd)
    ∧ st.possible_grasps <+: (generateAxisGrasps m bgt st axis direction gd).2.possible_grasps
    ∧ (∀ i : Nat, i < st.possible_grasps.length →
        (generateAxisGrasps m bgt st axis direction gd).2.possible_grasps[i]?
          = st.possible_grasps[i]?)
    ∧ (generateGrasps m block_pose gd st).2.possible_grasps
        = st.possible_grasps ++ newGrasps st (generateGrasps m block_pose gd st)
    ∧ st.possible_grasps <+: (generateGrasps m block_pose gd st).2.possible_grasps
    ∧ (∀ i : Nat, i < st.possible_grasps.length →
        (generateGrasps m block_pose gd st).2.possible_grasps[i]? = st.possible_grasps[i]?)
    ∧ (1 ≤ gd.angle_resolution_ →
        ((generateGrasps m block_pose gd st).2.possible_grasps.length : Int)
          = (st.possible_grasps.length : Int) + gd.angle_resolution_ + 1) := by
  have hA := generateAxisGrasps_append m bgt st axis direction gd
  have hG := generateGrasps_append m block_pose gd st
  refine ⟨hA, ⟨_, hA.symm⟩, ?_, hG, ⟨_, hG.symm⟩, ?_, ?_⟩
  · intro i hi
    rw [hA, List.getElem?_append_left hi]
  · intro i hi
    rw [hG, List.getElem?_append_left hi]
  · intro hR
    have hn : (((gd.angle_resolution_ + 1).toNat : Nat) : Int) = gd.angle_resolution_ + 1 :=
      Int.toNat_of_nonneg (by omega)
    rw [generateGrasps_eq]
    simp only [List.length_append, List.length_map, List.length_range]
    push_cast
    rw [hn]
    ring

/-- C21, on the vector left by a first call at resolution 1 (2 grasps), with a second call
at resolution 4: 2 + 4 + 1 entries. -/
theorem only_appends_witness :
    (((generateGrasps (Libm.mk Real.sin Real.cos Real.sqrt Real.pi toFloat32) examplePose
        (exampleGraspData 4)
        (generateGrasps (Libm.mk Real.sin Real.cos Real.sqrt Real.pi toFloat32) identityPose
          (exampleGraspData 1) ⟨[], 0⟩).2).2.possible_grasps.length : Nat) : Int)
      = (((generateGrasps (Libm.mk Real.sin Real.cos Real.sqrt Real.pi toFloat32) identityPose
          (exampleGraspData 1) ⟨[], 0⟩).2.possible_grasps.length : Nat) : Int)
        + (exampleGraspData 4 : RobotGraspData ℝ).angle_resolution_ + 1 :=
  (only_appends (Libm.mk Real.sin Real.cos Real.sqrt Real.pi toFloat32) (poseMsgToEigen identityPose)
    examplePose
    (generateGrasps (Libm.mk Real.sin Real.cos Real.sqrt Real.pi toFloat32) identityPose
      (exampleGraspData 1) ⟨[], 0⟩).2 Y_AXIS DOWN (exampleGraspData 4)).2.2.2.2.2.2 (by decide)

end block_grasp_generator
